import Mathlib

/-!
Verification of the structured-logging subsystem and ping/pong routes of the
`microservice-template` repository, as a shallow embedding in Lean.

Python values that can appear as a log message or as an extra field are
modelled by `PyVal`; `json.dumps` is modelled by `jsonDumps`, which fails
(Python: raises `TypeError`) exactly on values containing a non-serializable
object (`PyVal.obj`, whose `str()` form is the stored string).  Fallible
Python code is embedded in `Except PyExn`.
-/

/-- A Python exception, as far as the embedded code distinguishes them:
`TypeError` (from `json.dumps` on a non-serializable value, or from
`setLevel` on a non-int non-str) and `ValueError` (from `setLevel` on a
string that is not a level name). -/
inductive PyExn : Type where
  | typeError
  | valueError
deriving Repr, DecidableEq

/-- The universe of Python values the logging subsystem handles: strings,
ints, bools, `None`, dicts with string keys, lists, and opaque objects that
`json.dumps` cannot serialize (their `str()` form is the stored string).
Dict keys are modelled as strings, which is how every call site in the
repository builds them. -/
inductive PyVal : Type where
  | str (s : String)
  | int (n : Int)
  | bool (b : Bool)
  | none
  | dict (fields : List (String × PyVal))
  | list (items : List PyVal)
  | obj (reprStr : String)

/-- `isinstance(v, (dict, list))`, the test both formatters use on `record.msg`
and on extra-field values. -/
def isDictOrList : PyVal → Bool
  | .dict _ => true
  | .list _ => true
  | _ => false

/-- Left-brace as text (used when building JSON and repr output). -/
def lbr : String := "\x7b"

/-- Right-brace as text. -/
def rbr : String := "\x7d"

/-- Join strings with a separator (the shape `json.dumps` and `"\n".join`
produce). -/
def joinSep (sep : String) : List String → String
  | [] => ""
  | [x] => x
  | x :: y :: xs => x ++ sep ++ joinSep sep (y :: xs)

/-- One hex digit. -/
def hexDigit (n : Nat) : Char :=
  "0123456789abcdef".data.getD (n % 16) '0'

/-- Four-digit hex rendering used by JSON `\uXXXX` escapes. -/
def hex4 (n : Nat) : String :=
  String.mk [hexDigit (n / 4096), hexDigit (n / 256), hexDigit (n / 16),
             hexDigit n]

/-- JSON escaping of one character, as `json.dumps(..., ensure_ascii=False)`
performs it: `"` and `\` get a backslash, the control characters below 0x20
use the short escapes or `\uXXXX`, everything else is emitted as-is. -/
def escChar (c : Char) : String :=
  if c = Char.ofNat 34 then "\\\""
  else if c = '\\' then "\\\\"
  else if c = Char.ofNat 10 then "\\n"
  else if c = Char.ofNat 9 then "\\t"
  else if c = Char.ofNat 13 then "\\r"
  else if c = Char.ofNat 8 then "\\b"
  else if c = Char.ofNat 12 then "\\f"
  else if c.toNat < 32 then "\\u" ++ hex4 c.toNat
  else String.mk [c]

/-- JSON encoding of a string: quotes around the escaped characters. -/
def encodeJsonStr (s : String) : String :=
  "\"" ++ joinSep "" (s.data.map escChar) ++ "\""

/-- One decimal digit. -/
def decDigit (n : Nat) : Char :=
  "0123456789".data.getD (n % 10) '0'

/-- Decimal digits of a natural number (empty for 0). -/
def natDigits : Nat → List Char
  | 0 => []
  | n + 1 => natDigits ((n + 1) / 10) ++ [decDigit (n + 1)]
decreasing_by exact Nat.div_lt_self (Nat.succ_pos n) (by omega)

/-- Decimal rendering of a natural number. -/
def natRepr (n : Nat) : String :=
  if n = 0 then "0" else String.mk (natDigits n)

/-- Decimal rendering of an integer, as both Python `str` and JSON emit it. -/
def intRepr : Int → String
  | .ofNat n => natRepr n
  | .negSucc n => "-" ++ natRepr (n + 1)

mutual

/-- `json.dumps(v, ensure_ascii=False)`: compact one-line JSON, failing with
`TypeError` exactly when the value contains a non-serializable object. -/
def jsonDumps : PyVal → Except PyExn String
  | .str s => .ok (encodeJsonStr s)
  | .int n => .ok (intRepr n)
  | .bool b => .ok (if b then "true" else "false")
  | .none => .ok "null"
  | .obj _ => .error .typeError
  | .dict fs =>
      match dumpFields fs with
      | .ok parts => .ok (lbr ++ joinSep ", " parts ++ rbr)
      | .error e => .error e
  | .list xs =>
      match dumpItems xs with
      | .ok parts => .ok ("[" ++ joinSep ", " parts ++ "]")
      | .error e => .error e

/-- The `"key": value` parts of a JSON object, in insertion order. -/
def dumpFields : List (String × PyVal) → Except PyExn (List String)
  | [] => .ok []
  | (k, v) :: rest =>
      match jsonDumps v, dumpFields rest with
      | .ok s, .ok ss => .ok ((encodeJsonStr k ++ ": " ++ s) :: ss)
      | .error e, _ => .error e
      | .ok _, .error e => .error e

/-- The element parts of a JSON array. -/
def dumpItems : List PyVal → Except PyExn (List String)
  | [] => .ok []
  | v :: rest =>
      match jsonDumps v, dumpItems rest with
      | .ok s, .ok ss => .ok (s :: ss)
      | .error e, _ => .error e
      | .ok _, .error e => .error e

end

mutual

/-- Whether `json.dumps` succeeds on the value: true iff no opaque object
occurs inside it. -/
def jsonSerializable : PyVal → Bool
  | .dict fs => serializableFields fs
  | .list xs => serializableItems xs
  | .obj _ => false
  | _ => true

/-- All dict values serializable. -/
def serializableFields : List (String × PyVal) → Bool
  | [] => true
  | (_, v) :: rest => jsonSerializable v && serializableFields rest

/-- All list items serializable. -/
def serializableItems : List PyVal → Bool
  | [] => true
  | v :: rest => jsonSerializable v && serializableItems rest

end

mutual

/-- Python `str(v)` for the values in scope.  For containers this follows
`repr`: elements are rendered with `pyRepr`, strings get quotes.  (CPython
additionally escapes quotes inside strings; no claim depends on that
detail.) -/
def pyToStr : PyVal → String
  | .str s => s
  | .int n => intRepr n
  | .bool b => if b then "True" else "False"
  | .none => "None"
  | .obj r => r
  | .dict fs => lbr ++ joinSep ", " (reprFields fs) ++ rbr
  | .list xs => "[" ++ joinSep ", " (reprItems xs) ++ "]"

/-- Python `repr(v)`. -/
def pyRepr : PyVal → String
  | .str s => "\x27" ++ s ++ "\x27"
  | v => pyToStr v

/-- `repr` of each dict entry, `key: value`. -/
def reprFields : List (String × PyVal) → List String
  | [] => []
  | (k, v) :: rest => ("\x27" ++ k ++ "\x27: " ++ pyRepr v) :: reprFields rest

/-- `repr` of each list element. -/
def reprItems : List PyVal → List String
  | [] => []
  | v :: rest => pyRepr v :: reprItems rest

end

/-- A JSON document, the specification-side notion of "valid JSON":
a string is a valid JSON document iff it is the `Json.encode` of some `Json`
value. -/
inductive Json : Type where
  | null
  | bool (b : Bool)
  | num (n : Int)
  | str (s : String)
  | arr (items : List Json)
  | obj (fields : List (String × Json))

mutual

/-- Canonical compact encoding of a JSON document. -/
def Json.encode : Json → String
  | .null => "null"
  | .bool b => if b then "true" else "false"
  | .num n => intRepr n
  | .str s => encodeJsonStr s
  | .arr xs => "[" ++ joinSep ", " (encodeItems xs) ++ "]"
  | .obj fs => lbr ++ joinSep ", " (encodeFields fs) ++ rbr

/-- Encodings of the elements of a JSON array. -/
def encodeItems : List Json → List String
  | [] => []
  | j :: rest => j.encode :: encodeItems rest

/-- Encodings of the fields of a JSON object. -/
def encodeFields : List (String × Json) → List String
  | [] => []
  | (k, j) :: rest => (encodeJsonStr k ++ ": " ++ j.encode) :: encodeFields rest

end

mutual

/-- The JSON document a serializable Python value denotes (`none` when the
value contains a non-serializable object). -/
def toJson : PyVal → Option Json
  | .str s => some (.str s)
  | .int n => some (.num n)
  | .bool b => some (.bool b)
  | .none => some .null
  | .obj _ => Option.none
  | .dict fs =>
      match toJsonFields fs with
      | some js => some (.obj js)
      | Option.none => Option.none
  | .list xs =>
      match toJsonItems xs with
      | some js => some (.arr js)
      | Option.none => Option.none

/-- Denotations of dict fields. -/
def toJsonFields : List (String × PyVal) → Option (List (String × Json))
  | [] => some []
  | (k, v) :: rest =>
      match toJson v, toJsonFields rest with
      | some j, some js => some ((k, j) :: js)
      | _, _ => Option.none

/-- Denotations of list items. -/
def toJsonItems : List PyVal → Option (List Json)
  | [] => some []
  | v :: rest =>
      match toJson v, toJsonItems rest with
      | some j, some js => some (j :: js)
      | _, _ => Option.none

end

/-- The attribute names of a freshly constructed `logging.LogRecord`, i.e.
`set(vars(logging.LogRecord("", 0, "", 0, "", (), None)).keys())`, which both
formatters use as `_STD_ATTRS` (the set of the Python version this template
targets; on 3.12+ it additionally contains `taskName`, which no claim
involves). -/
def stdAttrs : List String :=
  ["name", "msg", "args", "levelname", "levelno", "pathname", "filename",
   "module", "exc_info", "exc_text", "stack_info", "lineno", "funcName",
   "created", "msecs", "relativeCreated", "thread", "threadName",
   "processName", "process"]

/-- Attached exception information (`record.exc_info`), together with the two
renderings the formatters can produce from it: `formatted` is the result of
`Formatter.formatException`, `fallbackFormatted` the result of the raw
`traceback.format_exception` dump, and `formatRaises` models
`formatException` itself raising (the fallback path). -/
structure ExcInfo : Type where
  formatted : String
  fallbackFormatted : String
  formatRaises : Bool

/-- A `logging.LogRecord` as the two formatters consume it.  The fixed fields
model attribute access (`record.name`, `record.levelname`, `record.levelno`,
`record.created`, `record.msg`, `record.exc_info`); `dictItems` models the
iteration `record.__dict__.items()` for the attributes beyond those fixed
fields, in insertion order (keys there may in principle collide with
standard attribute names or base payload keys, which is why the formatters
filter them).  `%`-style merging of `record.args` into the message is not
modelled: every logging call in this repository passes its data via
`extra=`, never via positional args, so `getMessage()` is `str(record.msg)`. -/
structure LogRecord : Type where
  name : String
  levelname : String
  levelno : Nat
  created : Nat
  msg : PyVal
  dictItems : List (String × PyVal)
  excInfo : Option ExcInfo

/-- `record.getMessage()` (no positional args, see `LogRecord`). -/
def getMessage (r : LogRecord) : String := pyToStr r.msg

/-- `self.formatTime(record, self.datefmt)`: a rendering of the record's
creation time.  `time.strftime` with the patterns used here emits digits,
dashes, colons and spaces; it is modelled as the decimal rendering of
`created`, which like the real output contains no newline and no character
that JSON escaping rewrites. -/
def formatTime (r : LogRecord) : String := natRepr r.created

/-- The text rendered from attached exception info: `formatException` when it
succeeds, else the raw `traceback.format_exception` dump. -/
def excText (e : ExcInfo) : String :=
  if e.formatRaises then e.fallbackFormatted else e.formatted

/-- The filter both formatters apply to `record.__dict__.items()`:
`k in self._STD_ATTRS or k in ("msg", "args")` skips the entry. -/
def isStdKey (k : String) : Bool :=
  stdAttrs.contains k || k == "msg" || k == "args"

/-- The extra fields a formatter renders: dict items whose key is not a
standard record attribute. -/
def filteredExtras (items : List (String × PyVal)) : List (String × PyVal) :=
  items.filter (fun kv => !(isStdKey kv.1))

/-- `ColoredConsoleFormatter.COLORS.get(levelname, "")`. -/
def levelColor (levelname : String) : String :=
  if levelname == "DEBUG" then "\x1b[36m"
  else if levelname == "INFO" then "\x1b[32m"
  else if levelname == "WARNING" then "\x1b[33m"
  else if levelname == "ERROR" then "\x1b[31m"
  else if levelname == "CRITICAL" then "\x1b[31;47m"
  else ""

/-- `ColoredConsoleFormatter.CYAN`. -/
def ansiCyan : String := "\x1b[36m"

/-- `ColoredConsoleFormatter.PURPLE`. -/
def ansiPurple : String := "\x1b[35m"

/-- `ColoredConsoleFormatter.THIN_WHITE`. -/
def ansiThinWhite : String := "\x1b[37m"

/-- `ColoredConsoleFormatter.RESET`. -/
def ansiReset : String := "\x1b[0m"

/-- Python left-aligned padding `f"{s:<w}"`. -/
def padTo (w : Nat) (s : String) : String :=
  s ++ String.mk (List.replicate (w - s.length) ' ')

/-- The value text of one extra field in the console formatter: compact JSON
for dicts/lists, else `str(v)`; if JSON serialization raises, the `except`
branch falls back to `str(v)`. -/
def renderExtraValue (v : PyVal) : String :=
  match (if isDictOrList v then jsonDumps v else .ok (pyToStr v)) with
  | .ok s => s
  | .error _ => pyToStr v

/-- One rendered extra-field line of the console formatter, with the corner
connector on the last field and the branch connector otherwise. -/
def extraLine (last : Bool) (k : String) (v : PyVal) : String :=
  "    " ++ ansiThinWhite ++ (if last then "└─" else "├─") ++ " \"" ++ k ++
    "\": " ++ renderExtraValue v ++ ansiReset

/-- The rendered extra-field lines, distinguishing the last field
(`i == len(extra_fields) - 1`). -/
def extraFieldLines : List (String × PyVal) → List String
  | [] => []
  | [(k, v)] => [extraLine true k v]
  | (k, v) :: kv :: rest => extraLine false k v :: extraFieldLines (kv :: rest)

/-- The header line of the console formatter (timestamp, level, logger name,
message, with ANSI colors). -/
def mainLine (r : LogRecord) (msgVal : String) : String :=
  let lc := levelColor r.levelname
  ansiCyan ++ formatTime r ++ " " ++ lc ++ "│" ++ ansiReset ++ " " ++
    lc ++ padTo 8 r.levelname ++ ansiReset ++ " " ++ lc ++ "│" ++ ansiReset ++
    " " ++ ansiPurple ++ padTo 15 r.name ++ lc ++ "│" ++ ansiReset ++ " " ++
    msgVal ++ " " ++ ansiReset

/-- `ColoredConsoleFormatter.format`, embedded with its exception flow: the
only unguarded fallible step is `json.dumps(record.msg)` for a dict/list
message; extra-field rendering and exception rendering are wrapped in
`try/except` fallbacks inside `renderExtraValue`/`excText`. -/
def coloredConsoleFormat (r : LogRecord) : Except PyExn String :=
  match (if isDictOrList r.msg then jsonDumps r.msg else .ok (getMessage r)) with
  | .error e => .error e
  | .ok msgVal =>
      let lines := mainLine r msgVal :: extraFieldLines (filteredExtras r.dictItems)
      let lines := match r.excInfo with
        | Option.none => lines
        | Option.some e => lines ++ ["\x1b[31m" ++ excText e ++ ansiReset]
      .ok (joinSep "\n" lines)

/-- Python dict assignment `d[k] = v` on an insertion-ordered dict: replaces
the value in place when the key exists, else appends the entry. -/
def dictInsert (d : List (String × PyVal)) (k : String) (v : PyVal) :
    List (String × PyVal) :=
  if d.any (fun p => p.1 == k) then
    d.map (fun p => if p.1 == k then (k, v) else p)
  else d ++ [(k, v)]

/-- The extras loop of `JsonLineFormatter.format`: skip standard keys; keep
the value when `json.dumps(v)` succeeds, else store `str(v)`. -/
def addExtras (payload : List (String × PyVal)) :
    List (String × PyVal) → List (String × PyVal)
  | [] => payload
  | (k, v) :: rest =>
      if isStdKey k then addExtras payload rest
      else match jsonDumps v with
        | .ok _ => addExtras (dictInsert payload k v) rest
        | .error _ => addExtras (dictInsert payload k (.str (pyToStr v))) rest

/-- The message value of the JSON payload: the structured value itself when
the message is a dict/list, else its string form. -/
def msgValOf (r : LogRecord) : PyVal :=
  if isDictOrList r.msg then r.msg else .str (getMessage r)

/-- The base object `JsonLineFormatter.format` starts from:
time, level, logger name, message. -/
def basePayload (r : LogRecord) : List (String × PyVal) :=
  [("time", PyVal.str (formatTime r)), ("level", PyVal.str r.levelname),
   ("logger", PyVal.str r.name), ("message", msgValOf r)]

/-- The payload dict `JsonLineFormatter.format` builds: the base object
(time, level, logger, message — the message kept structured when it is a
dict/list), then the filtered extras, then the `err` field for attached
exception info. -/
def jsonPayload (r : LogRecord) : List (String × PyVal) :=
  let p := addExtras (basePayload r) r.dictItems
  match r.excInfo with
  | Option.none => p
  | Option.some e => dictInsert p "err" (.str (excText e))

/-- `JsonLineFormatter.format`: the final `json.dumps(payload,
ensure_ascii=False)`.  Per-extra failures were already degraded to strings
inside `addExtras`; the final encode is the only remaining fallible step
(it fails when the structured message itself is not serializable). -/
def jsonLineFormat (r : LogRecord) : Except PyExn String :=
  jsonDumps (.dict (jsonPayload r))

/-- The raw newline character. -/
def nlChar : Char := Char.ofNat 10

/-- The string contains no raw newline character. -/
def noNL (s : String) : Prop := nlChar ∉ s.data

instance (s : String) : Decidable (noNL s) :=
  inferInstanceAs (Decidable (nlChar ∉ s.data))

theorem noNL_append {a b : String} (ha : noNL a) (hb : noNL b) : noNL (a ++ b) := by
  unfold noNL at *
  rw [String.data_append]
  intro h
  rcases List.mem_append.mp h with h | h
  exacts [ha h, hb h]

theorem noNL_joinSep (sep : String) (hsep : noNL sep) :
    ∀ (xs : List String), (∀ x ∈ xs, noNL x) → noNL (joinSep sep xs)
  | [], _ => by rw [joinSep]; intro h; exact absurd h (List.not_mem_nil nlChar)
  | [x], h => by rw [joinSep]; exact h x (by simp)
  | x :: y :: xs, h => by
      rw [joinSep]
      exact noNL_append (noNL_append (h x (by simp)) hsep)
        (noNL_joinSep sep hsep (y :: xs) (fun z hz => h z (by simp [hz])))

theorem hexDigit_ne_nl (n : Nat) : hexDigit n ≠ nlChar := by
  have h : n % 16 = 0 ∨ n % 16 = 1 ∨ n % 16 = 2 ∨ n % 16 = 3 ∨ n % 16 = 4 ∨
      n % 16 = 5 ∨ n % 16 = 6 ∨ n % 16 = 7 ∨ n % 16 = 8 ∨ n % 16 = 9 ∨
      n % 16 = 10 ∨ n % 16 = 11 ∨ n % 16 = 12 ∨ n % 16 = 13 ∨ n % 16 = 14 ∨
      n % 16 = 15 := by omega
  unfold hexDigit
  rcases h with h | h | h | h | h | h | h | h | h | h | h | h | h | h | h | h <;>
    rw [h] <;> decide

theorem decDigit_ne_nl (n : Nat) : decDigit n ≠ nlChar := by
  have h : n % 10 = 0 ∨ n % 10 = 1 ∨ n % 10 = 2 ∨ n % 10 = 3 ∨ n % 10 = 4 ∨
      n % 10 = 5 ∨ n % 10 = 6 ∨ n % 10 = 7 ∨ n % 10 = 8 ∨ n % 10 = 9 := by omega
  unfold decDigit
  rcases h with h | h | h | h | h | h | h | h | h | h <;> rw [h] <;> decide

theorem noNL_natDigits : ∀ (n : Nat), nlChar ∉ natDigits n
  | 0 => by rw [natDigits]; exact List.not_mem_nil nlChar
  | n + 1 => by
      rw [natDigits]
      intro h
      rcases List.mem_append.mp h with h | h
      · exact noNL_natDigits ((n + 1) / 10) h
      · rcases List.mem_singleton.mp h with h
        exact decDigit_ne_nl (n + 1) h.symm
decreasing_by exact Nat.div_lt_self (Nat.succ_pos n) (by omega)

theorem noNL_natRepr (n : Nat) : noNL (natRepr n) := by
  unfold natRepr
  split
  · decide
  · exact noNL_natDigits n

theorem noNL_intRepr : ∀ (n : Int), noNL (intRepr n)
  | .ofNat n => by rw [intRepr]; exact noNL_natRepr n
  | .negSucc n => by rw [intRepr]; exact noNL_append (by decide) (noNL_natRepr (n + 1))

theorem noNL_escChar (c : Char) : noNL (escChar c) := by
  unfold escChar
  split_ifs with h1 h2 h3 h4 h5 h6 h7 h8
  · decide
  · decide
  · decide
  · decide
  · decide
  · decide
  · decide
  · refine noNL_append (by decide) ?_
    unfold hex4 noNL
    show nlChar ∉ [hexDigit (c.toNat / 4096), hexDigit (c.toNat / 256),
      hexDigit (c.toNat / 16), hexDigit c.toNat]
    intro hmem
    simp only [List.mem_cons, List.not_mem_nil, or_false] at hmem
    rcases hmem with h | h | h | h <;> exact hexDigit_ne_nl _ h.symm
  · intro hmem
    have h : nlChar = c := List.mem_singleton.mp hmem
    exact h3 h.symm

theorem noNL_encodeJsonStr (s : String) : noNL (encodeJsonStr s) := by
  unfold encodeJsonStr
  refine noNL_append (noNL_append (by decide) ?_) (by decide)
  refine noNL_joinSep "" (by decide) _ ?_
  intro x hx
  rcases List.mem_map.mp hx with ⟨c, _, hc⟩
  exact hc ▸ noNL_escChar c

mutual

theorem noNL_encode : ∀ (j : Json), noNL (Json.encode j)
  | .null => by rw [Json.encode]; decide
  | .bool b => by rw [Json.encode]; cases b <;> decide
  | .num n => by rw [Json.encode]; exact noNL_intRepr n
  | .str s => by rw [Json.encode]; exact noNL_encodeJsonStr s
  | .arr xs => by
      rw [Json.encode]
      exact noNL_append (noNL_append (by decide)
        (noNL_joinSep ", " (by decide) _ (noNL_encodeItems xs))) (by decide)
  | .obj fs => by
      rw [Json.encode]
      exact noNL_append (noNL_append (by decide)
        (noNL_joinSep ", " (by decide) _ (noNL_encodeFields fs))) (by decide)

theorem noNL_encodeItems : ∀ (xs : List Json), ∀ x ∈ encodeItems xs, noNL x
  | [], x, hx => by rw [encodeItems] at hx; exact absurd hx (List.not_mem_nil x)
  | j :: rest, x, hx => by
      rw [encodeItems] at hx
      rcases List.mem_cons.mp hx with h | h
      · exact h ▸ noNL_encode j
      · exact noNL_encodeItems rest x h

theorem noNL_encodeFields : ∀ (fs : List (String × Json)), ∀ x ∈ encodeFields fs, noNL x
  | [], x, hx => by rw [encodeFields] at hx; exact absurd hx (List.not_mem_nil x)
  | (k, j) :: rest, x, hx => by
      rw [encodeFields] at hx
      rcases List.mem_cons.mp hx with h | h
      · exact h ▸ noNL_append (noNL_append (noNL_encodeJsonStr k) (by decide)) (noNL_encode j)
      · exact noNL_encodeFields rest x h

end

mutual

theorem toJson_of_serializable : ∀ (v : PyVal), jsonSerializable v = true →
    ∃ j, toJson v = some j
  | .str s, _ => ⟨.str s, by rw [toJson]⟩
  | .int n, _ => ⟨.num n, by rw [toJson]⟩
  | .bool b, _ => ⟨.bool b, by rw [toJson]⟩
  | .none, _ => ⟨.null, by rw [toJson]⟩
  | .obj r, h => by rw [jsonSerializable] at h; exact absurd h (by simp)
  | .dict fs, h => by
      rw [jsonSerializable] at h
      obtain ⟨js, hjs⟩ := toJsonFields_of_serializable fs h
      exact ⟨.obj js, by rw [toJson, hjs]⟩
  | .list xs, h => by
      rw [jsonSerializable] at h
      obtain ⟨js, hjs⟩ := toJsonItems_of_serializable xs h
      exact ⟨.arr js, by rw [toJson, hjs]⟩

theorem toJsonFields_of_serializable : ∀ (fs : List (String × PyVal)),
    serializableFields fs = true → ∃ js, toJsonFields fs = some js
  | [], _ => ⟨[], by rw [toJsonFields]⟩
  | (k, v) :: rest, h => by
      rw [serializableFields, Bool.and_eq_true] at h
      obtain ⟨j, hj⟩ := toJson_of_serializable v h.1
      obtain ⟨js, hjs⟩ := toJsonFields_of_serializable rest h.2
      exact ⟨(k, j) :: js, by rw [toJsonFields, hj, hjs]⟩

theorem toJsonItems_of_serializable : ∀ (xs : List PyVal),
    serializableItems xs = true → ∃ js, toJsonItems xs = some js
  | [], _ => ⟨[], by rw [toJsonItems]⟩
  | v :: rest, h => by
      rw [serializableItems, Bool.and_eq_true] at h
      obtain ⟨j, hj⟩ := toJson_of_serializable v h.1
      obtain ⟨js, hjs⟩ := toJsonItems_of_serializable rest h.2
      exact ⟨j :: js, by rw [toJsonItems, hj, hjs]⟩

end

mutual

theorem jsonDumps_of_toJson : ∀ (v : PyVal) (j : Json), toJson v = some j →
    jsonDumps v = .ok (Json.encode j)
  | .str s, j, h => by
      rw [toJson] at h; injection h with h; subst h; rw [jsonDumps, Json.encode]
  | .int n, j, h => by
      rw [toJson] at h; injection h with h; subst h; rw [jsonDumps, Json.encode]
  | .bool b, j, h => by
      rw [toJson] at h; injection h with h; subst h; rw [jsonDumps, Json.encode]
  | .none, j, h => by
      rw [toJson] at h; injection h with h; subst h; rw [jsonDumps, Json.encode]
  | .obj r, j, h => by rw [toJson] at h; exact absurd h (by simp)
  | .dict fs, j, h => by
      rw [toJson] at h
      cases hfs : toJsonFields fs with
      | none => rw [hfs] at h; exact absurd h (by simp)
      | some js =>
          rw [hfs] at h
          injection h with h; subst h
          rw [jsonDumps, dumpFields_of_toJsonFields fs js hfs, Json.encode]
  | .list xs, j, h => by
      rw [toJson] at h
      cases hxs : toJsonItems xs with
      | none => rw [hxs] at h; exact absurd h (by simp)
      | some js =>
          rw [hxs] at h
          injection h with h; subst h
          rw [jsonDumps, dumpItems_of_toJsonItems xs js hxs, Json.encode]

theorem dumpFields_of_toJsonFields : ∀ (fs : List (String × PyVal))
    (js : List (String × Json)), toJsonFields fs = some js →
    dumpFields fs = .ok (encodeFields js)
  | [], js, h => by
      rw [toJsonFields] at h; injection h with h; subst h
      rw [dumpFields, encodeFields]
  | (k, v) :: rest, js, h => by
      rw [toJsonFields] at h
      cases hv : toJson v with
      | none => rw [hv] at h; exact absurd h (by simp)
      | some j =>
          cases hrest : toJsonFields rest with
          | none => rw [hv, hrest] at h; exact absurd h (by simp)
          | some js2 =>
              rw [hv, hrest] at h
              injection h with h; subst h
              rw [dumpFields, jsonDumps_of_toJson v j hv,
                  dumpFields_of_toJsonFields rest js2 hrest, encodeFields]

theorem dumpItems_of_toJsonItems : ∀ (xs : List PyVal) (js : List Json),
    toJsonItems xs = some js → dumpItems xs = .ok (encodeItems js)
  | [], js, h => by
      rw [toJsonItems] at h; injection h with h; subst h
      rw [dumpItems, encodeItems]
  | v :: rest, js, h => by
      rw [toJsonItems] at h
      cases hv : toJson v with
      | none => rw [hv] at h; exact absurd h (by simp)
      | some j =>
          cases hrest : toJsonItems rest with
          | none => rw [hv, hrest] at h; exact absurd h (by simp)
          | some js2 =>
              rw [hv, hrest] at h
              injection h with h; subst h
              rw [dumpItems, jsonDumps_of_toJson v j hv,
                  dumpItems_of_toJsonItems rest js2 hrest, encodeItems]

end

/-- A serializable value dumps successfully, to the encoding of its JSON
denotation. -/
theorem jsonDumps_of_serializable (v : PyVal) (h : jsonSerializable v = true) :
    ∃ j, toJson v = some j ∧ jsonDumps v = .ok (Json.encode j) := by
  obtain ⟨j, hj⟩ := toJson_of_serializable v h
  exact ⟨j, hj, jsonDumps_of_toJson v j hj⟩

mutual

theorem jsonDumps_error_of_not_serializable : ∀ (v : PyVal),
    jsonSerializable v = false → jsonDumps v = .error .typeError
  | .str s, h => by simp [jsonSerializable] at h
  | .int n, h => by simp [jsonSerializable] at h
  | .bool b, h => by simp [jsonSerializable] at h
  | .none, h => by simp [jsonSerializable] at h
  | .obj r, _ => by rw [jsonDumps]
  | .dict fs, h => by
      rw [jsonSerializable] at h
      rw [jsonDumps, dumpFields_error_of_not_serializable fs h]
  | .list xs, h => by
      rw [jsonSerializable] at h
      rw [jsonDumps, dumpItems_error_of_not_serializable xs h]

theorem dumpFields_error_of_not_serializable : ∀ (fs : List (String × PyVal)),
    serializableFields fs = false → dumpFields fs = .error .typeError
  | [], h => by rw [serializableFields] at h; exact absurd h (by simp)
  | (k, v) :: rest, h => by
      rw [serializableFields] at h
      cases hv : jsonSerializable v with
      | false =>
          rw [dumpFields, jsonDumps_error_of_not_serializable v hv]
      | true =>
          rw [hv, Bool.true_and] at h
          obtain ⟨j, _, hok⟩ := jsonDumps_of_serializable v hv
          rw [dumpFields, hok, dumpFields_error_of_not_serializable rest h]

theorem dumpItems_error_of_not_serializable : ∀ (xs : List PyVal),
    serializableItems xs = false → dumpItems xs = .error .typeError
  | [], h => by rw [serializableItems] at h; exact absurd h (by simp)
  | v :: rest, h => by
      rw [serializableItems] at h
      cases hv : jsonSerializable v with
      | false =>
          rw [dumpItems, jsonDumps_error_of_not_serializable v hv]
      | true =>
          rw [hv, Bool.true_and] at h
          obtain ⟨j, _, hok⟩ := jsonDumps_of_serializable v hv
          rw [dumpItems, hok, dumpItems_error_of_not_serializable rest h]

end

/-- A value whose dump succeeded is serializable. -/
theorem serializable_of_dumps_ok {v : PyVal} {s : String}
    (h : jsonDumps v = .ok s) : jsonSerializable v = true := by
  cases hs : jsonSerializable v with
  | true => rfl
  | false => rw [jsonDumps_error_of_not_serializable v hs] at h; cases h

/-- `serializableFields` as an `all` over the entries. -/
theorem serializableFields_eq_all : ∀ (fs : List (String × PyVal)),
    serializableFields fs = fs.all (fun p => jsonSerializable p.2)
  | [] => by rw [serializableFields]; rfl
  | (k, v) :: rest => by
      rw [serializableFields, serializableFields_eq_all rest, List.all_cons]

/-- Inserting a serializable value keeps the payload serializable. -/
theorem serializableFields_dictInsert {d : List (String × PyVal)} {k : String}
    {v : PyVal} (hd : serializableFields d = true)
    (hv : jsonSerializable v = true) :
    serializableFields (dictInsert d k v) = true := by
  rw [serializableFields_eq_all, List.all_eq_true] at *
  intro p hp
  unfold dictInsert at hp
  split at hp
  · rcases List.mem_map.mp hp with ⟨q, hq, hqe⟩
    by_cases hqk : q.1 == k
    · rw [if_pos hqk] at hqe; rw [← hqe]; exact hv
    · rw [if_neg hqk] at hqe; rw [← hqe]; exact hd q hq
  · rcases List.mem_append.mp hp with h | h
    · exact hd p h
    · rw [List.mem_singleton.mp h]; exact hv

/-- The extras loop keeps the payload serializable: every value it inserts
either passed the `json.dumps` probe or was coerced to a string. -/
theorem serializableFields_addExtras : ∀ (items : List (String × PyVal))
    (payload : List (String × PyVal)), serializableFields payload = true →
    serializableFields (addExtras payload items) = true
  | [], payload, h => by rw [addExtras]; exact h
  | (k, v) :: rest, payload, h => by
      rw [addExtras]
      split
      · exact serializableFields_addExtras rest payload h
      · cases hv : jsonDumps v with
        | ok s =>
            exact serializableFields_addExtras rest _
              (serializableFields_dictInsert h (serializable_of_dumps_ok hv))
        | error e =>
            refine serializableFields_addExtras rest _
              (serializableFields_dictInsert h ?_)
            simp [jsonSerializable]

theorem basePayload_serializable (r : LogRecord)
    (hmsg : isDictOrList r.msg = true → jsonSerializable r.msg = true) :
    serializableFields (basePayload r) = true := by
  have hm : jsonSerializable (msgValOf r) = true := by
    unfold msgValOf
    split
    · exact hmsg (by assumption)
    · simp [jsonSerializable]
  unfold basePayload
  rw [serializableFields_eq_all]
  simp [jsonSerializable, hm]

theorem jsonPayload_serializable (r : LogRecord)
    (hmsg : isDictOrList r.msg = true → jsonSerializable r.msg = true) :
    serializableFields (jsonPayload r) = true := by
  have h1 := serializableFields_addExtras r.dictItems (basePayload r)
    (basePayload_serializable r hmsg)
  unfold jsonPayload
  cases he : r.excInfo with
  | none => simpa using h1
  | some e =>
      simp only []
      exact serializableFields_dictInsert h1 (by simp [jsonSerializable])

theorem dictInsert_append_of_fresh (base acc : List (String × PyVal))
    (k : String) (v : PyVal) (h : ∀ p ∈ base, p.1 ≠ k) :
    ∃ acc2, dictInsert (base ++ acc) k v = base ++ acc2 := by
  unfold dictInsert
  split
  · refine ⟨acc.map (fun p => if p.1 == k then (k, v) else p), ?_⟩
    rw [List.map_append]
    congr 1
    have : ∀ p ∈ base, (if p.1 == k then (k, v) else p) = p := by
      intro p hp
      rw [if_neg]
      intro hc
      exact h p hp (beq_iff_eq.mp hc)
    calc base.map (fun p => if p.1 == k then (k, v) else p)
        = base.map (fun p => p) := List.map_congr_left this
      _ = base := List.map_id' base
  · exact ⟨acc ++ [(k, v)], by rw [List.append_assoc]⟩

theorem addExtras_append : ∀ (items : List (String × PyVal))
    (base acc : List (String × PyVal)),
    (∀ kv ∈ items, ∀ p ∈ base, p.1 ≠ kv.1) →
    ∃ acc2, addExtras (base ++ acc) items = base ++ acc2
  | [], _, acc, _ => ⟨acc, by rw [addExtras]⟩
  | (k, v) :: rest, base, acc, h => by
      rw [addExtras]
      split
      · exact addExtras_append rest base acc (fun kv hkv => h kv (by simp [hkv]))
      · have hk : ∀ p ∈ base, p.1 ≠ k := fun p hp => h (k, v) (by simp) p hp
        cases hv : jsonDumps v with
        | ok s =>
            obtain ⟨acc2, ha⟩ := dictInsert_append_of_fresh base acc k v hk
            rw [ha]
            exact addExtras_append rest base acc2 (fun kv hkv => h kv (by simp [hkv]))
        | error e =>
            obtain ⟨acc2, ha⟩ :=
              dictInsert_append_of_fresh base acc k (PyVal.str (pyToStr v)) hk
            rw [ha]
            exact addExtras_append rest base acc2 (fun kv hkv => h kv (by simp [hkv]))

/-- The keys of the base payload object. -/
def baseKeys : List String := ["time", "level", "logger", "message"]

theorem basePayload_key_mem (r : LogRecord) :
    ∀ p ∈ basePayload r, p.1 ∈ baseKeys := by
  intro p hp
  unfold basePayload at hp
  simp only [List.mem_cons, List.not_mem_nil, or_false] at hp
  rcases hp with hp | hp | hp | hp
  · rw [hp]; show ("time" : String) ∈ baseKeys; decide
  · rw [hp]; show ("level" : String) ∈ baseKeys; decide
  · rw [hp]; show ("logger" : String) ∈ baseKeys; decide
  · rw [hp]; show ("message" : String) ∈ baseKeys; decide

/-- When no dict item reuses a base key, the payload keeps the base object
as its prefix. -/
theorem jsonPayload_base_prefix (r : LogRecord)
    (h : ∀ kv ∈ r.dictItems, kv.1 ∉ baseKeys) :
    ∃ tail, jsonPayload r = basePayload r ++ tail := by
  have hb : ∀ kv ∈ r.dictItems, ∀ p ∈ basePayload r, p.1 ≠ kv.1 := by
    intro kv hkv p hp he
    exact h kv hkv (he ▸ basePayload_key_mem r p hp)
  obtain ⟨tail, ht⟩ := addExtras_append r.dictItems (basePayload r) [] hb
  rw [List.append_nil] at ht
  unfold jsonPayload
  cases he : r.excInfo with
  | none => exact ⟨tail, by simpa using ht⟩
  | some e =>
      simp only [ht]
      have herr : ∀ p ∈ basePayload r, p.1 ≠ "err" := by
        intro p hp hc
        have := basePayload_key_mem r p hp
        rw [hc] at this
        exact absurd this (by decide)
      obtain ⟨tail2, ht2⟩ :=
        dictInsert_append_of_fresh (basePayload r) tail "err" (PyVal.str (excText e)) herr
      exact ⟨tail2, ht2⟩

/-- An unserializable value degrades to plain string coercion in the console
formatter's extra-field rendering (the `except` fallback). -/
theorem renderExtraValue_degrades (v : PyVal) (hv : jsonSerializable v = false) :
    renderExtraValue v = pyToStr v := by
  unfold renderExtraValue
  by_cases hd : isDictOrList v
  · rw [if_pos hd, jsonDumps_error_of_not_serializable v hv]
  · rw [if_neg hd]

/-- C1, amended: `ColoredConsoleFormatter.format` returns a string without
raising for every record whose message, when it is a mapping/sequence, is
JSON-serializable; extra-field values of arbitrary type (and attached
exception info) never cause a raise — an unserializable extra value degrades
to plain string coercion.  (The unamended claim is refuted by
`c1_counterexample`: a mapping message containing a non-serializable object
makes the unguarded `json.dumps(record.msg)` raise.) -/
theorem coloredConsoleFormat_total (r : LogRecord)
    (hmsg : isDictOrList r.msg = true → jsonSerializable r.msg = true) :
    (∃ s, coloredConsoleFormat r = .ok s) ∧
    (∀ v : PyVal, jsonSerializable v = false → renderExtraValue v = pyToStr v) := by
  have hok : ∃ s,
      (if isDictOrList r.msg then jsonDumps r.msg else Except.ok (getMessage r)) =
        .ok s := by
    split
    · obtain ⟨j, _, h2⟩ := jsonDumps_of_serializable _ (hmsg (by assumption))
      exact ⟨_, h2⟩
    · exact ⟨_, rfl⟩
  obtain ⟨s, hs⟩ := hok
  refine ⟨?_, fun v hv => renderExtraValue_degrades v hv⟩
  unfold coloredConsoleFormat
  rw [hs]
  exact ⟨_, rfl⟩

/-- A record whose mapping message contains a non-serializable object. -/
def c1BadRecord : LogRecord :=
  { name := "svc", levelname := "INFO", levelno := 20, created := 0,
    msg := .dict [("payload", .obj "<object object at 0x7f>")],
    dictItems := [], excInfo := Option.none }

/-- C1 counterexample: the formatter raises (`TypeError` from the unguarded
`json.dumps(record.msg)`) on a mapping message with a non-serializable
value, although the claim asserts it never raises, in particular for mapping
messages. -/
theorem coloredConsoleFormat_raises :
    coloredConsoleFormat c1BadRecord = .error .typeError := by
  simp [coloredConsoleFormat, c1BadRecord, isDictOrList, jsonDumps, dumpFields]

/-- A record with a plain message and an extra field of arbitrary
(non-serializable) type. -/
def c1OkRecord : LogRecord :=
  { name := "svc", levelname := "INFO", levelno := 20, created := 7,
    msg := .str "hello", dictItems := [("weird", .obj "<frob instance>")],
    excInfo := Option.none }

/-- Witness for `coloredConsoleFormat_total` at a concrete record. -/
theorem coloredConsoleFormat_total_witness :
    (∃ s, coloredConsoleFormat c1OkRecord = .ok s) ∧
    (∀ v : PyVal, jsonSerializable v = false → renderExtraValue v = pyToStr v) :=
  coloredConsoleFormat_total c1OkRecord
    (by intro h; simp [c1OkRecord, isDictOrList] at h)

/-- C2, amended: for every record whose message, when it is a mapping or
sequence, is JSON-serializable, `JsonLineFormatter.format` returns without
raising a single valid JSON document (the encoding of a JSON value) with no
embedded raw newline; when additionally no `record.__dict__` entry reuses a
base key (`time`, `level`, `logger`, `message`), the encoded object starts
with exactly those four base fields — time, level, logger name, and the
message (preserved structured when it was a mapping/sequence, else its
string form).  (The unamended claim is refuted by `jsonLineFormat_violations`:
an unserializable structured message makes the final `json.dumps` raise, and
an extra field named `level` silently replaces the base level field.) -/
theorem jsonLineFormat_ok (r : LogRecord)
    (hmsg : isDictOrList r.msg = true → jsonSerializable r.msg = true) :
    ∃ s, jsonLineFormat r = .ok s ∧ (∃ j, s = Json.encode j) ∧ noNL s ∧
      ((∀ kv ∈ r.dictItems, kv.1 ∉ baseKeys) →
        ∃ tail, jsonPayload r = basePayload r ++ tail) := by
  have hp := jsonPayload_serializable r hmsg
  have hs : jsonSerializable (.dict (jsonPayload r)) = true := by
    rw [jsonSerializable]; exact hp
  obtain ⟨j, _, hok⟩ := jsonDumps_of_serializable _ hs
  refine ⟨Json.encode j, ?_, ⟨j, rfl⟩, noNL_encode j, jsonPayload_base_prefix r⟩
  unfold jsonLineFormat
  exact hok

/-- A record whose sequence message contains a non-serializable object. -/
def c2BadRecord : LogRecord :=
  { name := "svc", levelname := "ERROR", levelno := 40, created := 1,
    msg := .list [.obj "<generator object>"], dictItems := [], excInfo := Option.none }

/-- A record with an extra field named `level`, colliding with a base payload
key. -/
def c2CollideRecord : LogRecord :=
  { name := "svc", levelname := "INFO", levelno := 20, created := 3,
    msg := .str "hi", dictItems := [("level", .int 5)], excInfo := Option.none }

/-- C2 counterexample: (1) the formatter raises on a sequence message holding
a non-serializable object, although the claim asserts it always returns;
(2) an extra field named `level` overwrites the base object's level entry,
so the base object does not hold the record's level. -/
theorem jsonLineFormat_violations :
    jsonLineFormat c2BadRecord = .error .typeError ∧
    (∀ tail, jsonPayload c2CollideRecord ≠ basePayload c2CollideRecord ++ tail) := by
  constructor
  · simp [jsonLineFormat, jsonPayload, basePayload, msgValOf, addExtras, c2BadRecord,
      isDictOrList, jsonDumps, dumpFields, dumpItems]
  · intro tail h
    have h1 : jsonPayload c2CollideRecord =
        [("time", PyVal.str (natRepr 3)), ("level", PyVal.int 5),
         ("logger", PyVal.str "svc"), ("message", PyVal.str "hi")] := by
      simp [jsonPayload, basePayload, msgValOf, addExtras, dictInsert, c2CollideRecord,
        isDictOrList, jsonDumps, getMessage, pyToStr, formatTime, isStdKey, stdAttrs]
    have h2 : basePayload c2CollideRecord =
        [("time", PyVal.str (natRepr 3)), ("level", PyVal.str "INFO"),
         ("logger", PyVal.str "svc"), ("message", PyVal.str "hi")] := by
      simp [basePayload, msgValOf, c2CollideRecord, isDictOrList, getMessage, pyToStr,
        formatTime]
    rw [h1, h2] at h
    simp at h

/-- Witness for `jsonLineFormat_ok` at a concrete record (serializable dict
message, one extra field, no base-key collision). -/
theorem jsonLineFormat_ok_witness :
    ∃ s, jsonLineFormat c1OkRecord = .ok s ∧ (∃ j, s = Json.encode j) ∧ noNL s ∧
      ((∀ kv ∈ c1OkRecord.dictItems, kv.1 ∉ baseKeys) →
        ∃ tail, jsonPayload c1OkRecord = basePayload c1OkRecord ++ tail) :=
  jsonLineFormat_ok c1OkRecord (by intro h; simp [c1OkRecord, isDictOrList] at h)

/-- Python `payload[k]` read on an insertion-ordered dict (keys unique). -/
def lookupKey : List (String × PyVal) → String → Option PyVal
  | [], _ => Option.none
  | p :: rest, k => if p.1 == k then some p.2 else lookupKey rest k

theorem lookupKey_map_other {k k2 : String} {v : PyVal} (hk : k2 ≠ k) :
    ∀ (d : List (String × PyVal)),
      lookupKey (d.map (fun p => if p.1 == k then (k, v) else p)) k2 = lookupKey d k2
  | [] => rfl
  | p :: rest => by
      rw [List.map_cons]
      by_cases hp : p.1 == k
      · have hpk : p.1 = k := beq_iff_eq.mp hp
        have hne : ¬ (p.1 == k2) = true := by
          simp only [beq_iff_eq]; rw [hpk]; exact fun hc => hk hc.symm
        have hne2 : ¬ (((k, v) : String × PyVal).1 == k2) = true := by
          simp only [beq_iff_eq]; exact fun hc => hk hc.symm
        rw [if_pos hp, lookupKey, lookupKey, if_neg hne2, if_neg hne]
        exact lookupKey_map_other hk rest
      · rw [if_neg hp, lookupKey, lookupKey]
        by_cases hp2 : p.1 == k2
        · rw [if_pos hp2, if_pos hp2]
        · rw [if_neg hp2, if_neg hp2]
          exact lookupKey_map_other hk rest

theorem lookupKey_append_single_other {k k2 : String} {v : PyVal} (hk : k2 ≠ k) :
    ∀ (d : List (String × PyVal)), lookupKey (d ++ [(k, v)]) k2 = lookupKey d k2
  | [] => by
      have hne : ¬ (((k, v) : String × PyVal).1 == k2) = true := by
        simp only [beq_iff_eq]; exact fun hc => hk hc.symm
      simp only [List.nil_append, lookupKey, if_neg hne]
  | p :: rest => by
      rw [List.cons_append, lookupKey, lookupKey]
      by_cases hp : p.1 == k2
      · rw [if_pos hp, if_pos hp]
      · rw [if_neg hp, if_neg hp]
        exact lookupKey_append_single_other hk rest

/-- Reading a key other than the inserted one is unchanged by `d[k] = v`. -/
theorem lookupKey_dictInsert_other {k k2 : String} {v : PyVal}
    (hk : k2 ≠ k) (d : List (String × PyVal)) :
    lookupKey (dictInsert d k v) k2 = lookupKey d k2 := by
  unfold dictInsert
  split
  · exact lookupKey_map_other hk d
  · exact lookupKey_append_single_other hk d

theorem lookupKey_map_self {k : String} {v : PyVal} :
    ∀ (d : List (String × PyVal)), d.any (fun p => p.1 == k) = true →
      lookupKey (d.map (fun p => if p.1 == k then (k, v) else p)) k = some v
  | [], h => by simp at h
  | p :: rest, h => by
      rw [List.map_cons]
      by_cases hp : p.1 == k
      · rw [if_pos hp, lookupKey, if_pos (by simp)]
      · have hpf : (p.1 == k) = false := by simpa using hp
        rw [List.any_cons, hpf, Bool.false_or] at h
        rw [if_neg hp, lookupKey, if_neg hp]
        exact lookupKey_map_self rest h

theorem lookupKey_none_of_not_any {k : String} :
    ∀ (d : List (String × PyVal)), d.any (fun p => p.1 == k) = false →
      lookupKey d k = Option.none
  | [], _ => rfl
  | p :: rest, h => by
      rw [List.any_cons, Bool.or_eq_false_iff] at h
      rw [lookupKey, if_neg (by rw [h.1]; simp)]
      exact lookupKey_none_of_not_any rest h.2

theorem lookupKey_append_single_self {k : String} {v : PyVal} :
    ∀ (d : List (String × PyVal)), lookupKey d k = Option.none →
      lookupKey (d ++ [(k, v)]) k = some v
  | [], _ => by rw [List.nil_append, lookupKey, if_pos (by simp)]
  | p :: rest, h => by
      rw [lookupKey] at h
      by_cases hp : p.1 == k
      · rw [if_pos hp] at h; cases h
      · rw [if_neg hp] at h
        rw [List.cons_append, lookupKey, if_neg hp]
        exact lookupKey_append_single_self rest h

/-- Reading back the inserted key after `d[k] = v` yields `v`. -/
theorem lookupKey_dictInsert_self (k : String) (v : PyVal)
    (d : List (String × PyVal)) :
    lookupKey (dictInsert d k v) k = some v := by
  unfold dictInsert
  split
  · exact lookupKey_map_self d (by assumption)
  · rename_i h
    exact lookupKey_append_single_self d
      (lookupKey_none_of_not_any d (Bool.eq_false_iff.mpr h))

theorem lookupKey_addExtras_fresh : ∀ (items payload : List (String × PyVal))
    (k : String), (∀ kv ∈ items, kv.1 ≠ k) →
    lookupKey (addExtras payload items) k = lookupKey payload k
  | [], payload, k, _ => by rw [addExtras]
  | (k2, v2) :: rest, payload, k, h => by
      have hk2 : k2 ≠ k := h (k2, v2) (by simp)
      have hrest : ∀ kv ∈ rest, kv.1 ≠ k := fun kv hkv => h kv (by simp [hkv])
      rw [addExtras]
      split
      · exact lookupKey_addExtras_fresh rest payload k hrest
      · cases hv : jsonDumps v2 with
        | ok s =>
            rw [lookupKey_addExtras_fresh rest _ k hrest]
            exact lookupKey_dictInsert_other (fun hc => hk2 hc.symm) payload
        | error e =>
            rw [lookupKey_addExtras_fresh rest _ k hrest]
            exact lookupKey_dictInsert_other (fun hc => hk2 hc.symm) payload

theorem lookupKey_addExtras_mem : ∀ (items payload : List (String × PyVal))
    (k : String) (v : PyVal),
    List.Pairwise (fun a b => a.1 ≠ b.1) items → (k, v) ∈ items →
    isStdKey k = false →
    lookupKey (addExtras payload items) k =
      some (match jsonDumps v with | .ok _ => v | .error _ => .str (pyToStr v))
  | [], _, k, v, _, hmem, _ => absurd hmem (List.not_mem_nil _)
  | (k2, v2) :: rest, payload, k, v, hpw, hmem, hstd => by
      rcases List.mem_cons.mp hmem with he | hmem2
      · have h1 : k2 = k := (congrArg Prod.fst he).symm
        have h2 : v2 = v := (congrArg Prod.snd he).symm
        subst h1; subst h2
        have hfresh : ∀ kv ∈ rest, kv.1 ≠ k2 := by
          intro kv hkv hc
          exact ((List.pairwise_cons.mp hpw).1 kv hkv) hc.symm
        rw [addExtras, if_neg (by rw [hstd]; exact Bool.false_ne_true)]
        cases hv : jsonDumps v2 with
        | ok s =>
            rw [lookupKey_addExtras_fresh rest _ k2 hfresh, lookupKey_dictInsert_self]
        | error e =>
            rw [lookupKey_addExtras_fresh rest _ k2 hfresh, lookupKey_dictInsert_self]
      · have hpw2 := (List.pairwise_cons.mp hpw).2
        rw [addExtras]
        split
        · exact lookupKey_addExtras_mem rest payload k v hpw2 hmem2 hstd
        · cases hv : jsonDumps v2 with
          | ok s => exact lookupKey_addExtras_mem rest _ k v hpw2 hmem2 hstd
          | error e => exact lookupKey_addExtras_mem rest _ k v hpw2 hmem2 hstd

/-- An entry of `dictInsert d k v` is an entry of `d` or the inserted pair. -/
theorem mem_dictInsert {p : String × PyVal} {d : List (String × PyVal)}
    {k : String} {v : PyVal} (hp : p ∈ dictInsert d k v) : p ∈ d ∨ p = (k, v) := by
  unfold dictInsert at hp
  split at hp
  · rcases List.mem_map.mp hp with ⟨q, hq, he⟩
    by_cases hqk : q.1 == k
    · rw [if_pos hqk] at he; exact Or.inr he.symm
    · rw [if_neg hqk] at he; exact Or.inl (he ▸ hq)
  · rcases List.mem_append.mp hp with h | h
    · exact Or.inl h
    · exact Or.inr (List.mem_singleton.mp h)

theorem addExtras_keys_not_std : ∀ (items payload : List (String × PyVal)),
    (∀ p ∈ payload, isStdKey p.1 = false) →
    ∀ p ∈ addExtras payload items, isStdKey p.1 = false
  | [], payload, hpl => by rw [addExtras]; exact hpl
  | (k, v) :: rest, payload, hpl => by
      rw [addExtras]
      split
      · exact addExtras_keys_not_std rest payload hpl
      · rename_i hstd
        have hk : isStdKey k = false := Bool.eq_false_iff.mpr hstd
        cases hv : jsonDumps v with
        | ok s =>
            refine addExtras_keys_not_std rest _ ?_
            intro p hp
            rcases mem_dictInsert hp with h | h
            · exact hpl p h
            · rw [h]; exact hk
        | error e =>
            refine addExtras_keys_not_std rest _ ?_
            intro p hp
            rcases mem_dictInsert hp with h | h
            · exact hpl p h
            · rw [h]; exact hk

/-- No key of the emitted payload is a standard record attribute (in
particular `msg` and `args` never appear). -/
theorem jsonPayload_keys_not_std (r : LogRecord) :
    ∀ p ∈ jsonPayload r, isStdKey p.1 = false := by
  have hbase : ∀ p ∈ basePayload r, isStdKey p.1 = false := by
    intro p hp
    have hm := basePayload_key_mem r p hp
    simp only [baseKeys, List.mem_cons, List.not_mem_nil, or_false] at hm
    rcases hm with h | h | h | h <;> rw [h] <;> decide
  have h1 := addExtras_keys_not_std r.dictItems (basePayload r) hbase
  unfold jsonPayload
  cases he : r.excInfo with
  | none => simpa using h1
  | some e =>
      simp only []
      intro p hp
      rcases mem_dictInsert hp with h | h
      · exact h1 p h
      · rw [h]; exact (by decide : isStdKey "err" = false)

/-- C9, amended: for every record whose message, when it is a
mapping/sequence, is JSON-serializable, and every extra field `(k, v)` of
the record's dict with a non-serializable value `v` (keys of a Python dict
are necessarily pairwise distinct; the field must not be named `err` while
exception info is attached, since the `err` rendering is written last):
the emitted payload holds `k` with the value coerced to its string form,
the overall output is still a valid JSON document, and keys colliding with
the standard record attributes (including `msg` and `args`) are excluded
from the payload.  (The unamended claim is refuted by
`jsonLineFormat_extras_violations`.) -/
theorem jsonLineFormat_extras_degrade (r : LogRecord) (k : String) (v : PyVal)
    (hmsg : isDictOrList r.msg = true → jsonSerializable r.msg = true)
    (hkeys : List.Pairwise (fun a b => a.1 ≠ b.1) r.dictItems)
    (hmem : (k, v) ∈ r.dictItems) (hstd : isStdKey k = false)
    (herr : r.excInfo = Option.none ∨ k ≠ "err")
    (hv : jsonSerializable v = false) :
    lookupKey (jsonPayload r) k = some (.str (pyToStr v)) ∧
    (∃ s, jsonLineFormat r = .ok s ∧ ∃ j, s = Json.encode j) ∧
    (∀ p ∈ jsonPayload r, isStdKey p.1 = false) := by
  refine ⟨?_, ?_, jsonPayload_keys_not_std r⟩
  · have hdump : jsonDumps v = .error .typeError :=
      jsonDumps_error_of_not_serializable v hv
    have hl := lookupKey_addExtras_mem r.dictItems (basePayload r) k v hkeys hmem hstd
    rw [hdump] at hl
    unfold jsonPayload
    cases he : r.excInfo with
    | none => simpa using hl
    | some e =>
        have hke : k ≠ "err" := by
          rcases herr with h | h
          · rw [he] at h; cases h
          · exact h
        simp only []
        rw [lookupKey_dictInsert_other hke _]
        exact hl
  · have hp := jsonPayload_serializable r hmsg
    have hs : jsonSerializable (.dict (jsonPayload r)) = true := by
      rw [jsonSerializable]; exact hp
    obtain ⟨j, _, hok⟩ := jsonDumps_of_serializable _ hs
    exact ⟨Json.encode j, by unfold jsonLineFormat; exact hok, j, rfl⟩

/-- A record with an unserializable mapping message and an unserializable
extra field. -/
def c9BadRecord : LogRecord :=
  { name := "svc", levelname := "INFO", levelno := 20, created := 2,
    msg := .dict [("x", .obj "<lock object>")],
    dictItems := [("blob", .obj "<blob object>")], excInfo := Option.none }

/-- A record with exception info attached and an extra field named `err`. -/
def c9ErrRecord : LogRecord :=
  { name := "svc", levelname := "ERROR", levelno := 40, created := 2,
    msg := .str "boom", dictItems := [("err", .obj "<err details>")],
    excInfo := Option.some { formatted := "ZeroDivisionError: division by zero",
                             fallbackFormatted := "tb", formatRaises := false } }

/-- C9 counterexample: (1) with an unserializable mapping message the
formatter raises, so the unserializable extra field is not emitted inside
any valid JSON output; (2) with exception info attached, an extra field
named `err` is not emitted as its string coercion — the exception rendering
overwrites it. -/
theorem jsonLineFormat_extras_violations :
    jsonLineFormat c9BadRecord = .error .typeError ∧
    lookupKey (jsonPayload c9ErrRecord) "err" ≠
      some (.str (pyToStr (.obj "<err details>"))) := by
  constructor
  · simp [jsonLineFormat, jsonPayload, basePayload, msgValOf, addExtras, dictInsert,
      c9BadRecord, isDictOrList, jsonDumps, dumpFields, dumpItems, isStdKey, stdAttrs,
      getMessage, pyToStr, formatTime, excText]
  · have h : lookupKey (jsonPayload c9ErrRecord) "err" =
        some (.str "ZeroDivisionError: division by zero") := by
      simp [jsonPayload, basePayload, msgValOf, addExtras, dictInsert, c9ErrRecord,
        isDictOrList, jsonDumps, getMessage, pyToStr, formatTime, isStdKey, stdAttrs,
        excText, lookupKey]
    rw [h]
    simp [pyToStr]

/-- A record with a serializable message and one unserializable extra. -/
def c9OkRecord : LogRecord :=
  { name := "svc", levelname := "INFO", levelno := 20, created := 9,
    msg := .str "ready", dictItems := [("handle", .obj "<socket fd=3>")],
    excInfo := Option.none }

/-- Witness for `jsonLineFormat_extras_degrade` at a concrete record. -/
theorem jsonLineFormat_extras_degrade_witness :
    lookupKey (jsonPayload c9OkRecord) "handle" =
      some (.str (pyToStr (.obj "<socket fd=3>"))) ∧
    (∃ s, jsonLineFormat c9OkRecord = .ok s ∧ ∃ j, s = Json.encode j) ∧
    (∀ p ∈ jsonPayload c9OkRecord, isStdKey p.1 = false) :=
  jsonLineFormat_extras_degrade c9OkRecord "handle" (.obj "<socket fd=3>")
    (by intro h; simp [c9OkRecord, isDictOrList] at h)
    (by simp [c9OkRecord])
    (by simp [c9OkRecord])
    (by decide)
    (Or.inl rfl)
    (by simp [jsonSerializable])

/-- Read from a Python dict keyed by strings (first match; keys unique). -/
def alistGet {α : Type} : List (String × α) → String → Option α
  | [], _ => Option.none
  | p :: rest, k => if p.1 == k then some p.2 else alistGet rest k

/-- Python dict assignment `d[k] = v`: replace in place or append. -/
def alistSet {α : Type} (d : List (String × α)) (k : String) (v : α) :
    List (String × α) :=
  if d.any (fun p => p.1 == k) then
    d.map (fun p => if p.1 == k then (k, v) else p)
  else d ++ [(k, v)]

theorem alistGet_append_of_some {α : Type} {k : String} {v : α} :
    ∀ (d l : List (String × α)), alistGet d k = some v →
      alistGet (d ++ l) k = some v
  | [], _, h => by cases h
  | p :: rest, l, h => by
      rw [alistGet] at h
      rw [List.cons_append, alistGet]
      by_cases hp : p.1 == k
      · rw [if_pos hp] at h ⊢; exact h
      · rw [if_neg hp] at h ⊢; exact alistGet_append_of_some rest l h

theorem alistGet_mem {α : Type} {k : String} {v : α} :
    ∀ {d : List (String × α)}, alistGet d k = some v → (k, v) ∈ d
  | [], h => by cases h
  | p :: rest, h => by
      rw [alistGet] at h
      by_cases hp : p.1 == k
      · rw [if_pos hp] at h
        injection h with h
        have : p = (k, v) := by
          rcases p with ⟨p1, p2⟩
          have h1 : p1 = k := beq_iff_eq.mp hp
          have h2 : p2 = v := h
          rw [h1, h2]
        exact this ▸ List.mem_cons_self p rest
      · rw [if_neg hp] at h
        exact List.mem_cons_of_mem p (alistGet_mem h)


theorem alistGet_map_self {α : Type} {k : String} {v : α} :
    ∀ (d : List (String × α)), d.any (fun p => p.1 == k) = true →
      alistGet (d.map (fun p => if p.1 == k then (k, v) else p)) k = some v
  | [], h => by simp at h
  | p :: rest, h => by
      rw [List.map_cons]
      by_cases hp : p.1 == k
      · rw [if_pos hp, alistGet, if_pos (by simp)]
      · have hpf : (p.1 == k) = false := by simpa using hp
        rw [List.any_cons, hpf, Bool.false_or] at h
        rw [if_neg hp, alistGet, if_neg hp]
        exact alistGet_map_self rest h

theorem alistGet_none_of_not_any {α : Type} {k : String} :
    ∀ (d : List (String × α)), d.any (fun p => p.1 == k) = false →
      alistGet d k = Option.none
  | [], _ => rfl
  | p :: rest, h => by
      rw [List.any_cons, Bool.or_eq_false_iff] at h
      rw [alistGet, if_neg (by rw [h.1]; simp)]
      exact alistGet_none_of_not_any rest h.2

theorem alistGet_append_single_self {α : Type} {k : String} {v : α} :
    ∀ (d : List (String × α)), alistGet d k = Option.none →
      alistGet (d ++ [(k, v)]) k = some v
  | [], _ => by rw [List.nil_append, alistGet, if_pos (by simp)]
  | p :: rest, h => by
      rw [alistGet] at h
      by_cases hp : p.1 == k
      · rw [if_pos hp] at h; cases h
      · rw [if_neg hp] at h
        rw [List.cons_append, alistGet, if_neg hp]
        exact alistGet_append_single_self rest h

/-- Reading back the written key after `d[k] = v` yields `v`. -/
theorem alistGet_set_self {α : Type} (k : String) (v : α)
    (d : List (String × α)) : alistGet (alistSet d k v) k = some v := by
  unfold alistSet
  split
  · exact alistGet_map_self d (by assumption)
  · rename_i h
    exact alistGet_append_single_self d
      (alistGet_none_of_not_any d (Bool.eq_false_iff.mpr h))

theorem alistGet_map_other {α : Type} {k k2 : String} {v : α} (hk : k2 ≠ k) :
    ∀ (d : List (String × α)),
      alistGet (d.map (fun p => if p.1 == k then (k, v) else p)) k2 = alistGet d k2
  | [] => rfl
  | p :: rest => by
      rw [List.map_cons]
      by_cases hp : p.1 == k
      · have hpk : p.1 = k := beq_iff_eq.mp hp
        have hne : ¬ (p.1 == k2) = true := by
          simp only [beq_iff_eq]; rw [hpk]; exact fun hc => hk hc.symm
        have hne2 : ¬ (((k, v) : String × α).1 == k2) = true := by
          simp only [beq_iff_eq]; exact fun hc => hk hc.symm
        rw [if_pos hp, alistGet, alistGet, if_neg hne2, if_neg hne]
        exact alistGet_map_other hk rest
      · rw [if_neg hp, alistGet, alistGet]
        by_cases hp2 : p.1 == k2
        · rw [if_pos hp2, if_pos hp2]
        · rw [if_neg hp2, if_neg hp2]
          exact alistGet_map_other hk rest

theorem alistGet_append_single_other {α : Type} {k k2 : String} {v : α}
    (hk : k2 ≠ k) : ∀ (d : List (String × α)),
      alistGet (d ++ [(k, v)]) k2 = alistGet d k2
  | [] => by
      have hne : ¬ (((k, v) : String × α).1 == k2) = true := by
        simp only [beq_iff_eq]; exact fun hc => hk hc.symm
      simp only [List.nil_append, alistGet, if_neg hne]
  | p :: rest => by
      rw [List.cons_append, alistGet, alistGet]
      by_cases hp : p.1 == k2
      · rw [if_pos hp, if_pos hp]
      · rw [if_neg hp, if_neg hp]
        exact alistGet_append_single_other hk rest

/-- Reading another key is unchanged by `d[k] = v`. -/
theorem alistGet_set_other {α : Type} {k k2 : String} {v : α} (hk : k2 ≠ k)
    (d : List (String × α)) : alistGet (alistSet d k v) k2 = alistGet d k2 := by
  unfold alistSet
  split
  · exact alistGet_map_other hk d
  · exact alistGet_append_single_other hk d

/-- `str.upper()` (the configuration strings in scope are ASCII). -/
def pyUpper (s : String) : String := String.mk (s.data.map Char.toUpper)

/-- `otlp_endpoint.rstrip("/")`. -/
def rstripSlash (s : String) : String :=
  String.mk ((s.data.reverse.dropWhile (fun c => c = '/')).reverse)

/-- The console threshold `setup_logging` ends up with,
`getattr(logging, console_level.upper(), logging.DEBUG)`, WIDENED to total:
the eight severity-level attributes of the `logging` module map to their
values and every other string to the `getattr` default, DEBUG.  This drops
the two uppercase non-level attributes of the module (`BASIC_FORMAT`,
`_STYLES`), on which the real `getattr` returns a non-int and the
subsequent `setLevel` raises; `consoleSetLevel` below is the faithful
pipeline, and `consoleSetLevel_eq_getattrLevel` shows the two agree exactly
away from those two names.  Uses of `getattrLevel` at recognized level
names (as in the C8 scenario) are exact. -/
def getattrLevel (s : String) : Nat :=
  let u := pyUpper s
  if u == "CRITICAL" then 50
  else if u == "FATAL" then 50
  else if u == "ERROR" then 40
  else if u == "WARNING" then 30
  else if u == "WARN" then 30
  else if u == "INFO" then 20
  else if u == "DEBUG" then 10
  else if u == "NOTSET" then 0
  else 10

/-- The uppercase-named attributes of the `logging` module that are not
severity levels, reachable through `getattr(logging, s.upper(), ...)`:
`BASIC_FORMAT` is a format string (a `str` that is not a level name, so
`Handler.setLevel`'s `_checkLevel` raises `ValueError` on it) and `_STYLES`
is a dict (neither int nor str, so `_checkLevel` raises `TypeError`). -/
def nonLevelUpperAttrs : List String := ["BASIC_FORMAT", "_STYLES"]

/-- The faithful console-threshold pipeline of `setup_logging` line 88,
`console_handler.setLevel(getattr(logging, console_level.upper(),
logging.DEBUG))`: `getattr` returns the named `logging` attribute when one
exists — the eight integer severity levels, but also the non-level
attributes `BASIC_FORMAT` and `_STYLES`, on which `setLevel` raises — and
the default DEBUG when the upcased string names no attribute at all. -/
def consoleSetLevel (s : String) : Except PyExn Nat :=
  let u := pyUpper s
  if u == "CRITICAL" then .ok 50
  else if u == "FATAL" then .ok 50
  else if u == "ERROR" then .ok 40
  else if u == "WARNING" then .ok 30
  else if u == "WARN" then .ok 30
  else if u == "INFO" then .ok 20
  else if u == "DEBUG" then .ok 10
  else if u == "NOTSET" then .ok 0
  else if u == "BASIC_FORMAT" then .error .valueError
  else if u == "_STYLES" then .error .typeError
  else .ok 10

/-- `log_levels.get(level.upper(), logging.NOTSET)` in
`_get_otlp_logging_handler`: the five canonical names, default NOTSET. -/
def logLevelsGet (s : String) : Nat :=
  let u := pyUpper s
  if u == "CRITICAL" then 50
  else if u == "ERROR" then 40
  else if u == "WARNING" then 30
  else if u == "INFO" then 20
  else if u == "DEBUG" then 10
  else 0

/-- A handler's destination: the stdout console stream, or an OTLP pipeline
shipping to the stored exporter endpoint. -/
inductive HandlerKind : Type where
  | console
  | otlp (endpoint : String)
deriving Repr, DecidableEq

/-- A `logging.Handler` as this subsystem configures it: a destination kind,
a minimum level, and an allocation id (`uid`) standing for Python object
identity, so that "the identical handler object" is expressible. -/
structure Handler : Type where
  kind : HandlerKind
  level : Nat
  uid : Nat
deriving Repr, DecidableEq

/-- The handler writes to the console. -/
def isConsoleHandler (h : Handler) : Bool :=
  match h.kind with
  | .console => true
  | .otlp _ => false

/-- The handler is a remote (OTLP) sink. -/
def isOtlpHandler (h : Handler) : Bool :=
  match h.kind with
  | .console => false
  | .otlp _ => true

/-- A named `logging.Logger`'s relevant state.  A logger freshly created by
`logging.getLogger` has level NOTSET, no handlers, and propagates. -/
structure LoggerState : Type where
  level : Nat := 0
  handlers : List Handler := []
  propagate : Bool := true
deriving Repr, DecidableEq

/-- The environment-sourced `LogSettings` (`log/config.py`). -/
structure Settings : Type where
  service_name : String := "microservice"
  log_console_level : String := "DEBUG"
  log_otlp_level : String := "INFO"
  otlp_endpoint : Option String := Option.none
deriving Repr, DecidableEq

/-- The process-wide state the logging module manipulates: the logging
module's registry of named loggers, the module-level `_OTLP_HANDLERS` cache,
whether the optional OpenTelemetry exporter packages import successfully,
the settings, and an allocation counter for fresh handler objects. -/
structure World : Type where
  loggers : List (String × LoggerState) := []
  otlpHandlers : List (String × Handler) := []
  otelAvailable : Bool := true
  settings : Settings := {}
  nextUid : Nat := 0
deriving Repr, DecidableEq

/-- `logging.getLogger(name)`: the stored state, or a fresh logger. -/
def getLoggerState (w : World) (name : String) : LoggerState :=
  match alistGet w.loggers name with
  | some lg => lg
  | Option.none => {}

/-- Store a named logger's state. -/
def setLoggerState (w : World) (name : String) (lg : LoggerState) : World :=
  { w with loggers := alistSet w.loggers name lg }

/-- Modelled from the spec: the repository's trace-filter module
(`log/filters.py`, imported by `logger.py` as `OTelTraceFilter`) is not
under `src/`.  Per §4.1 of the spec the enrichment filter only attaches
`trace_id`/`span_id` when an active span exists, must not raise, and never
suppresses a record — its pass/suppress decision, the only part emission
depends on, is always "pass". -/
def otelTraceFilterPasses : Bool := true

/-- `_get_otlp_logging_handler(service_name, level, otlp_endpoint)`: return
the cached handler for `service_name` if one exists (ignoring `level` and
`otlp_endpoint`); otherwise, if the OpenTelemetry exporter packages cannot
be imported — the construction-failure mode visible in the source — return
`None` without touching the registry; otherwise build a fresh
`LoggingHandler` whose exporter ships to `rstrip`-ped endpoint + "/v1/logs"
and whose level is the dict lookup with NOTSET default, cache it under
`service_name`, and return it. -/
def getOtlpLoggingHandler (w : World) (service_name level otlp_endpoint : String) :
    Option Handler × World :=
  match alistGet w.otlpHandlers service_name with
  | some h => (some h, w)
  | Option.none =>
      if w.otelAvailable then
        let h : Handler := { kind := .otlp (rstripSlash otlp_endpoint ++ "/v1/logs"),
                             level := logLevelsGet level, uid := w.nextUid }
        (some h, { w with otlpHandlers := w.otlpHandlers ++ [(service_name, h)],
                          nextUid := w.nextUid + 1 })
      else (Option.none, w)

/-- `setup_logging(service_name, console_level, otlp_level, otlp_endpoint)`:
get or create the logger, set its level to DEBUG, clear its handlers,
attach a fresh console handler (level from `getattr` with DEBUG default,
colored formatter, trace filter), then — when an endpoint is configured —
attach the registry's OTLP handler if one is obtainable; finally disable
propagation.  The warning/exception logging calls on the fallback paths
emit through the just-attached console handler and do not change any state
modelled here. -/
def setup_logging (w : World) (service_name console_level otlp_level : String)
    (otlp_endpoint : Option String) : LoggerState × World :=
  let lg0 := getLoggerState w service_name
  let lg1 : LoggerState := { lg0 with level := 10, handlers := [] }
  let ch : Handler := { kind := .console, level := getattrLevel console_level,
                        uid := w.nextUid }
  let w1 : World := { w with nextUid := w.nextUid + 1 }
  match otlp_endpoint with
  | some ep =>
      match getOtlpLoggingHandler w1 service_name otlp_level ep with
      | (some oh, w2) =>
          let lg2 : LoggerState :=
            { lg1 with handlers := [ch, oh], propagate := false }
          (lg2, setLoggerState w2 service_name lg2)
      | (Option.none, w2) =>
          let lg2 : LoggerState := { lg1 with handlers := [ch], propagate := false }
          (lg2, setLoggerState w2 service_name lg2)
  | Option.none =>
      let lg2 : LoggerState := { lg1 with handlers := [ch], propagate := false }
      (lg2, setLoggerState w1 service_name lg2)

/-- `setup_logging` with the console `setLevel` error path restored: when
`console_level.upper()` names a non-level attribute of the `logging`
module, `console_handler.setLevel` raises and the exception propagates out
of `setup_logging` (at that point the logger's level has been set and its
handlers cleared, in-place mutations this store-at-end embedding does not
track and no theorem here concerns); on every other input the call returns
exactly what `setup_logging` models. -/
def setup_logging_checked (w : World)
    (service_name console_level otlp_level : String)
    (otlp_endpoint : Option String) : Except PyExn (LoggerState × World) :=
  match consoleSetLevel console_level with
  | .error e => .error e
  | .ok _ => .ok (setup_logging w service_name console_level otlp_level otlp_endpoint)

theorem consoleSetLevel_eq_getattrLevel (s : String)
    (h : pyUpper s ∉ nonLevelUpperAttrs) :
    consoleSetLevel s = .ok (getattrLevel s) := by
  simp only [nonLevelUpperAttrs, List.mem_cons, List.not_mem_nil, or_false,
    not_or] at h
  have hb : (pyUpper s == "BASIC_FORMAT") = false := by simpa using h.1
  have hst : (pyUpper s == "_STYLES") = false := by simpa using h.2
  unfold consoleSetLevel getattrLevel
  simp only [hb, hst, Bool.false_eq_true, if_false]
  split_ifs <;> rfl

/-- `get_logger()`: return the settings-named logger as-is when it already
has handlers, else initialize it via `setup_logging` with the
configuration-derived defaults. -/
def get_logger (w : World) : LoggerState × World :=
  if (getLoggerState w w.settings.service_name).handlers.isEmpty then
    setup_logging w w.settings.service_name w.settings.log_console_level
      w.settings.log_otlp_level w.settings.otlp_endpoint
  else (getLoggerState w w.settings.service_name, w)

/-- C3: for a service name with no registry entry, the registry operation
attempts construction and, on the construction-failure mode visible in the
source (the optional OpenTelemetry dependency failing to import), returns
`None` instead of raising, leaves the registry untouched, and the caller
(`setup_logging`) proceeds with only the console sink attached. -/
theorem otlp_handler_unavailable (w : World) (s lv ep cl : String)
    (hno : alistGet w.otlpHandlers s = Option.none)
    (hfail : w.otelAvailable = false) :
    getOtlpLoggingHandler w s lv ep = (Option.none, w) ∧
    ((setup_logging w s cl lv (some ep)).1).handlers =
      [{ kind := .console, level := getattrLevel cl, uid := w.nextUid }] := by
  constructor
  · unfold getOtlpLoggingHandler
    rw [hno, if_neg (by rw [hfail]; exact Bool.false_ne_true)]
  · unfold setup_logging
    have h2 : getOtlpLoggingHandler { w with nextUid := w.nextUid + 1 } s lv ep =
        (Option.none, { w with nextUid := w.nextUid + 1 }) := by
      unfold getOtlpLoggingHandler
      rw [show ({ w with nextUid := w.nextUid + 1 } : World).otlpHandlers =
            w.otlpHandlers from rfl, hno,
          if_neg (by rw [show ({ w with nextUid := w.nextUid + 1 } : World).otelAvailable =
            w.otelAvailable from rfl, hfail]; exact Bool.false_ne_true)]
    simp only [h2]

/-- Witness for `otlp_handler_unavailable`: a fresh process whose optional
OpenTelemetry dependency is missing. -/
theorem otlp_handler_unavailable_witness :
    getOtlpLoggingHandler { otelAvailable := false } "svc" "INFO" "http://col:4318" =
      (Option.none, { otelAvailable := false }) ∧
    ((setup_logging { otelAvailable := false } "svc" "DEBUG" "INFO"
        (some "http://col:4318")).1).handlers =
      [{ kind := .console, level := getattrLevel "DEBUG", uid := 0 }] :=
  otlp_handler_unavailable { otelAvailable := false } "svc" "INFO"
    "http://col:4318" "DEBUG" rfl rfl

/-- The logging-setup operations a process can perform against a fixed
service name: re-running `setup_logging` with any levels and optional
endpoint, or calling `get_logger`. -/
inductive LogOp : Type where
  | setup (console_level otlp_level : String) (endpoint : Option String)
  | getLogger

/-- Apply one operation for service name `s`. -/
def applyOp (s : String) (w : World) : LogOp → World
  | .setup cl ol ep => (setup_logging w s cl ol ep).2
  | .getLogger => (get_logger w).2

/-- Run a sequence of operations. -/
def runOps (s : String) (w : World) : List LogOp → World
  | [] => w
  | op :: rest => runOps s (applyOp s w op) rest

theorem registry_persist_getOtlp (w0 : World) (sx lvx epx k : String) (h : Handler)
    (hk : alistGet w0.otlpHandlers k = some h) :
    alistGet ((getOtlpLoggingHandler w0 sx lvx epx).2).otlpHandlers k = some h := by
  unfold getOtlpLoggingHandler
  cases hc : alistGet w0.otlpHandlers sx with
  | some h2 => simp only [hc]; exact hk
  | none =>
      simp only [hc]
      split
      · exact alistGet_append_of_some _ _ hk
      · exact hk

theorem registry_persist_setup (w0 : World) (sn cl ol : String) (ep : Option String)
    (k : String) (h : Handler) (hk : alistGet w0.otlpHandlers k = some h) :
    alistGet ((setup_logging w0 sn cl ol ep).2).otlpHandlers k = some h := by
  unfold setup_logging
  cases ep with
  | none => simpa [setLoggerState] using hk
  | some e =>
      rcases hg : getOtlpLoggingHandler { w0 with nextUid := w0.nextUid + 1 } sn ol e
        with ⟨oh, w2⟩
      have hp := registry_persist_getOtlp { w0 with nextUid := w0.nextUid + 1 }
        sn ol e k h hk
      rw [hg] at hp
      cases oh with
      | some h2 => simpa [hg, setLoggerState] using hp
      | none => simpa [hg, setLoggerState] using hp

theorem registry_persist_get_logger (w0 : World) (k : String) (h : Handler)
    (hk : alistGet w0.otlpHandlers k = some h) :
    alistGet ((get_logger w0).2).otlpHandlers k = some h := by
  unfold get_logger
  split
  · exact registry_persist_setup w0 _ _ _ _ k h hk
  · exact hk

/-- Registry entries persist across every logging operation: nothing ever
removes or replaces an existing entry. -/
theorem registry_persist_runOps (s : String) : ∀ (ops : List LogOp) (w0 : World)
    (k : String) (h : Handler), alistGet w0.otlpHandlers k = some h →
    alistGet (runOps s w0 ops).otlpHandlers k = some h
  | [], _, _, _, hk => hk
  | op :: rest, w0, k, h, hk => by
      rw [runOps]
      refine registry_persist_runOps s rest _ k h ?_
      cases op with
      | setup cl ol ep => exact registry_persist_setup w0 s cl ol ep k h hk
      | getLogger => exact registry_persist_get_logger w0 k h hk

/-- C5: the sink registry is idempotent by service name, not by endpoint:
with no entry for `s`, the first call constructs the pipeline from `e1`;
a second call with a possibly different endpoint `e2` (and level) returns
the identical handle built from `e1`, constructs no second pipeline (the
world, allocation counter included, is unchanged); and entries once stored
persist through every further logging operation of the process. -/
theorem registry_idempotent_by_name (w : World) (s lv1 lv2 e1 e2 : String)
    (hno : alistGet w.otlpHandlers s = Option.none)
    (hok : w.otelAvailable = true) :
    (getOtlpLoggingHandler (getOtlpLoggingHandler w s lv1 e1).2 s lv2 e2).1 =
        (getOtlpLoggingHandler w s lv1 e1).1 ∧
    (getOtlpLoggingHandler w s lv1 e1).1 =
        some { kind := .otlp (rstripSlash e1 ++ "/v1/logs"),
               level := logLevelsGet lv1, uid := w.nextUid } ∧
    (getOtlpLoggingHandler (getOtlpLoggingHandler w s lv1 e1).2 s lv2 e2).2 =
        (getOtlpLoggingHandler w s lv1 e1).2 ∧
    (∀ (ops : List LogOp) (s2 k : String) (h : Handler) (w0 : World),
      alistGet w0.otlpHandlers k = some h →
      alistGet (runOps s2 w0 ops).otlpHandlers k = some h) := by
  have h1 : getOtlpLoggingHandler w s lv1 e1 =
      (some { kind := .otlp (rstripSlash e1 ++ "/v1/logs"),
              level := logLevelsGet lv1, uid := w.nextUid },
       { w with otlpHandlers := w.otlpHandlers ++
                  [(s, { kind := .otlp (rstripSlash e1 ++ "/v1/logs"),
                         level := logLevelsGet lv1, uid := w.nextUid })],
                nextUid := w.nextUid + 1 }) := by
    unfold getOtlpLoggingHandler
    simp only [hno]
    rw [if_pos hok]
  have hcache : alistGet (w.otlpHandlers ++
      [(s, { kind := .otlp (rstripSlash e1 ++ "/v1/logs"),
             level := logLevelsGet lv1, uid := w.nextUid })]) s =
      some { kind := HandlerKind.otlp (rstripSlash e1 ++ "/v1/logs"),
             level := logLevelsGet lv1, uid := w.nextUid } :=
    alistGet_append_single_self w.otlpHandlers hno
  have h2 : getOtlpLoggingHandler (getOtlpLoggingHandler w s lv1 e1).2 s lv2 e2 =
      ((getOtlpLoggingHandler w s lv1 e1).1, (getOtlpLoggingHandler w s lv1 e1).2) := by
    rw [h1]
    unfold getOtlpLoggingHandler
    simp only [hcache]
  refine ⟨?_, ?_, ?_, fun ops s2 k h w0 hk => registry_persist_runOps s2 ops w0 k h hk⟩
  · rw [h2]
  · rw [h1]
  · rw [h2]

/-- Witness for `registry_idempotent_by_name`: a fresh registry,
`get_or_create("svc-a", endpoint1)` then `get_or_create("svc-a", endpoint2)`. -/
theorem registry_idempotent_by_name_witness :
    (getOtlpLoggingHandler
        (getOtlpLoggingHandler {} "svc-a" "INFO" "http://tempo:4318/").2
        "svc-a" "WARNING" "http://other:9999").1 =
      (getOtlpLoggingHandler {} "svc-a" "INFO" "http://tempo:4318/").1 ∧
    (getOtlpLoggingHandler {} "svc-a" "INFO" "http://tempo:4318/").1 =
      some { kind := .otlp (rstripSlash "http://tempo:4318/" ++ "/v1/logs"),
             level := logLevelsGet "INFO", uid := 0 } ∧
    (getOtlpLoggingHandler
        (getOtlpLoggingHandler {} "svc-a" "INFO" "http://tempo:4318/").2
        "svc-a" "WARNING" "http://other:9999").2 =
      (getOtlpLoggingHandler {} "svc-a" "INFO" "http://tempo:4318/").2 ∧
    (∀ (ops : List LogOp) (s2 k : String) (h : Handler) (w0 : World),
      alistGet w0.otlpHandlers k = some h →
      alistGet (runOps s2 w0 ops).otlpHandlers k = some h) :=
  registry_idempotent_by_name {} "svc-a" "INFO" "WARNING"
    "http://tempo:4318/" "http://other:9999" rfl rfl

/-- The sink invariant: exactly one console handler, at most one remote
handler. -/
def goodSinks (lg : LoggerState) : Prop :=
  lg.handlers.countP (fun h => isConsoleHandler h) = 1 ∧
  lg.handlers.countP (fun h => isOtlpHandler h) ≤ 1

/-- Registry well-formedness: `_OTLP_HANDLERS` only ever stores OTLP
handlers. -/
def registryWF (w : World) : Prop :=
  ∀ p ∈ w.otlpHandlers, isOtlpHandler p.2 = true

/-- An OTLP handler is not a console handler. -/
theorem not_console_of_otlp {h : Handler} (ho : isOtlpHandler h = true) :
    isConsoleHandler h = false := by
  unfold isOtlpHandler at ho
  unfold isConsoleHandler
  cases hk : h.kind with
  | console => rw [hk] at ho; cases ho
  | otlp e => rfl

theorem getOtlp_wf (w : World) (sx lvx epx : String) (hwf : registryWF w) :
    registryWF ((getOtlpLoggingHandler w sx lvx epx).2) ∧
    (∀ h, (getOtlpLoggingHandler w sx lvx epx).1 = some h →
      isOtlpHandler h = true) := by
  unfold getOtlpLoggingHandler
  cases hc : alistGet w.otlpHandlers sx with
  | some h2 =>
      simp only [hc]
      refine ⟨hwf, fun h hh => ?_⟩
      injection hh with hh
      exact hh ▸ hwf (sx, h2) (alistGet_mem hc)
  | none =>
      simp only [hc]
      split
      · constructor
        · intro p hp
          rcases List.mem_append.mp hp with h | h
          · exact hwf p h
          · rw [List.mem_singleton.mp h]; rfl
        · intro h hh
          injection hh with hh
          rw [← hh]
          rfl
      · exact ⟨hwf, fun h hh => by cases hh⟩

theorem getOtlp_settings (w : World) (sx lvx epx : String) :
    ((getOtlpLoggingHandler w sx lvx epx).2).settings = w.settings := by
  unfold getOtlpLoggingHandler
  cases hc : alistGet w.otlpHandlers sx with
  | some h2 => simp only [hc]
  | none => simp only [hc]; split <;> rfl

theorem setup_logging_good (w : World) (sn cl ol : String) (ep : Option String)
    (hwf : registryWF w) :
    goodSinks ((setup_logging w sn cl ol ep).1) ∧
    registryWF ((setup_logging w sn cl ol ep).2) ∧
    ((setup_logging w sn cl ol ep).2).settings = w.settings ∧
    getLoggerState ((setup_logging w sn cl ol ep).2) sn =
      (setup_logging w sn cl ol ep).1 := by
  unfold setup_logging
  cases ep with
  | none =>
      refine ⟨?_, hwf, rfl, ?_⟩
      · simp [goodSinks, List.countP_cons, isConsoleHandler, isOtlpHandler]
      · unfold getLoggerState setLoggerState
        rw [alistGet_set_self]
  | some e =>
      have hg := getOtlp_wf { w with nextUid := w.nextUid + 1 } sn ol e hwf
      have hset := getOtlp_settings { w with nextUid := w.nextUid + 1 } sn ol e
      rcases hgo : getOtlpLoggingHandler { w with nextUid := w.nextUid + 1 } sn ol e
        with ⟨oh, w2⟩
      rw [hgo] at hg hset
      cases oh with
      | some h2 =>
          have ho : isOtlpHandler h2 = true := hg.2 h2 rfl
          have hc : isConsoleHandler h2 = false := not_console_of_otlp ho
          simp only [hgo]
          refine ⟨?_, hg.1, ?_, ?_⟩
          · constructor
            · have hch : isConsoleHandler { kind := HandlerKind.console, level := getattrLevel cl, uid := w.nextUid } = true := rfl
              simp [List.countP_cons, hc, hch]
            · have hcho : isOtlpHandler { kind := HandlerKind.console, level := getattrLevel cl, uid := w.nextUid } = false := rfl
              simp [List.countP_cons, ho, hcho]
          · unfold setLoggerState
            exact hset
          · unfold getLoggerState setLoggerState
            rw [alistGet_set_self]
      | none =>
          simp only [hgo]
          refine ⟨?_, hg.1, ?_, ?_⟩
          · simp [goodSinks, List.countP_cons, isConsoleHandler, isOtlpHandler]
          · unfold setLoggerState
            exact hset
          · unfold getLoggerState setLoggerState
            rw [alistGet_set_self]

/-- The state invariant maintained while operating the logger for a fixed
service name `s`: its sinks are well-formed, the registry is well-formed,
and the configured service name is `s` (so `get_logger` addresses it). -/
def logInvariant (s : String) (w : World) : Prop :=
  goodSinks (getLoggerState w s) ∧ registryWF w ∧ w.settings.service_name = s

theorem countP_pos_ne_nil {lg : LoggerState}
    (h : lg.handlers.countP (fun h => isConsoleHandler h) = 1) :
    lg.handlers.isEmpty = false := by
  cases hl : lg.handlers with
  | nil => rw [hl] at h; simp [List.countP_nil] at h
  | cons a l => rfl

theorem applyOp_establishes (s : String) (w : World) (op : LogOp)
    (hwf : registryWF w) (hs : w.settings.service_name = s) :
    (getLoggerState w s).handlers = [] → logInvariant s (applyOp s w op) := by
  intro hfresh
  cases op with
  | setup cl ol ep =>
      obtain ⟨h1, h2, h3, h4⟩ := setup_logging_good w s cl ol ep hwf
      exact ⟨h4 ▸ h1, h2, h3 ▸ hs⟩
  | getLogger =>
      show logInvariant s ((get_logger w).2)
      unfold get_logger
      rw [if_pos (by rw [hs, hfresh]; rfl)]
      obtain ⟨h1, h2, h3, h4⟩ := setup_logging_good w w.settings.service_name
        w.settings.log_console_level w.settings.log_otlp_level
        w.settings.otlp_endpoint hwf
      refine ⟨?_, h2, ?_⟩
      · rw [← hs]
        exact h4 ▸ h1
      · rw [h3]; exact hs

theorem applyOp_preserves (s : String) (w : World) (op : LogOp)
    (h : logInvariant s w) : logInvariant s (applyOp s w op) := by
  obtain ⟨hg, hwf, hs⟩ := h
  cases op with
  | setup cl ol ep =>
      obtain ⟨h1, h2, h3, h4⟩ := setup_logging_good w s cl ol ep hwf
      exact ⟨h4 ▸ h1, h2, h3 ▸ hs⟩
  | getLogger =>
      show logInvariant s ((get_logger w).2)
      unfold get_logger
      rw [if_neg (by rw [hs, countP_pos_ne_nil hg.1]; exact Bool.false_ne_true)]
      exact ⟨hg, hwf, hs⟩

theorem runOps_preserves (s : String) : ∀ (ops : List LogOp) (w : World),
    logInvariant s w → logInvariant s (runOps s w ops)
  | [], _, h => h
  | op :: rest, w, h =>
      runOps_preserves s rest (applyOp s w op) (applyOp_preserves s w op h)

/-- C4: sink idempotence.  Starting from a process state in which the named
logger has not been configured (no handlers attached), after any nonempty
sequence of `setup_logging` calls (with arbitrary levels and endpoints) and
`get_logger` calls for that service name, the logger has exactly one console
handler and at most one remote (OTLP) handler: re-initialization clears all
prior handlers before attaching new ones, so handlers are never
duplicated. -/
theorem setup_logging_idempotent_sinks (s : String) (w : World) (op : LogOp)
    (ops : List LogOp) (hwf : registryWF w) (hs : w.settings.service_name = s)
    (hfresh : (getLoggerState w s).handlers = []) :
    goodSinks (getLoggerState (runOps s w (op :: ops)) s) :=
  (runOps_preserves s ops (applyOp s w op)
    (applyOp_establishes s w op hwf hs hfresh)).1

/-- Witness for `setup_logging_idempotent_sinks`: a fresh process, two
`setup_logging` calls with an endpoint plus two `get_logger` calls. -/
theorem setup_logging_idempotent_sinks_witness :
    goodSinks (getLoggerState (runOps "microservice" {}
      [LogOp.setup "DEBUG" "INFO" (some "http://col:4318"), LogOp.getLogger,
       LogOp.setup "INFO" "WARNING" (some "http://col:4318"), LogOp.getLogger]) "microservice") :=
  setup_logging_idempotent_sinks "microservice" {}
    (LogOp.setup "DEBUG" "INFO" (some "http://col:4318"))
    [LogOp.getLogger, LogOp.setup "INFO" "WARNING" (some "http://col:4318"),
     LogOp.getLogger]
    (fun p hp => absurd hp (List.not_mem_nil p)) rfl rfl

/-- A record at severity `levelno` reaches the console destination: the
logger-level check (`isEnabledFor`), the handler-level check of a console
handler, and the enrichment filter's pass decision must all succeed. -/
def consoleEmits (lg : LoggerState) (levelno : Nat) : Bool :=
  lg.handlers.any (fun h => isConsoleHandler h && decide (lg.level ≤ levelno) &&
    decide (h.level ≤ levelno) && otelTraceFilterPasses)

/-- C8: after `setup_logging("svc", console_level=INFO, remote_level=WARNING,
endpoint=None)` on a fresh process, the logger's own threshold is DEBUG (10),
no remote sink exists, the console handler's threshold is INFO (20), a DEBUG
record produces no console output, and an INFO record reaches the console
sink. -/
theorem setup_console_scenario :
    ((setup_logging {} "svc" "INFO" "WARNING" Option.none).1).level = 10 ∧
    ((setup_logging {} "svc" "INFO" "WARNING" Option.none).1).handlers.countP
      (fun h => isOtlpHandler h) = 0 ∧
    ((setup_logging {} "svc" "INFO" "WARNING" Option.none).1).handlers =
      [{ kind := .console, level := 20, uid := 0 }] ∧
    consoleEmits ((setup_logging {} "svc" "INFO" "WARNING" Option.none).1) 10 = false ∧
    consoleEmits ((setup_logging {} "svc" "INFO" "WARNING" Option.none).1) 20 = true := by
  refine ⟨rfl, ?_, ?_, ?_, ?_⟩ <;> decide

/-- The strings that name a severity level attribute of the `logging`
module. -/
def severityLevelNames : List String :=
  ["CRITICAL", "FATAL", "ERROR", "WARNING", "WARN", "INFO", "DEBUG", "NOTSET"]

/-- All uppercase-named attributes of the `logging` module: a string whose
uppercase form lies outside this list makes `getattr(logging, ..., DEBUG)`
return its default. -/
def loggingUpperAttrNames : List String :=
  severityLevelNames ++ nonLevelUpperAttrs

/-- C10 counterexample: `"basic_format"` is an unrecognized severity-level
string, yet `setup_logging` raises on it instead of defaulting the console
threshold to DEBUG — `getattr(logging, "BASIC_FORMAT", DEBUG)` returns the
module's format string and `setLevel` rejects it with `ValueError`
(`"_styles"` likewise reaches the `_STYLES` dict, rejected with
`TypeError`). -/
theorem setup_logging_raises_on_attr :
    setup_logging_checked {} "svc" "basic_format" "INFO" Option.none =
      .error .valueError ∧
    consoleSetLevel "basic_format" = .error .valueError ∧
    consoleSetLevel "_styles" = .error .typeError := by
  refine ⟨?_, rfl, rfl⟩
  unfold setup_logging_checked
  rw [show consoleSetLevel "basic_format" = .error .valueError from rfl]

/-- C10, amended: `setup_logging` never raises on a severity-level string
whose uppercase form names no attribute of the `logging` module, and for
those strings the fallback defaults are asymmetric: `getattr(logging,
s.upper(), DEBUG)` makes the console sink's threshold DEBUG (10), while
`log_levels.get(s.upper(), NOTSET)` makes the remote handler's level NOTSET
(0), so every record passes the remote sink's own level check.  (The
unamended "never raises on any unrecognized severity string" is refuted by
`setup_logging_raises_on_attr`: an unrecognized severity string upcasing to
a non-level `logging` attribute makes `setLevel` raise.) -/
theorem unrecognized_level_defaults (lvl : String)
    (h : pyUpper lvl ∉ loggingUpperAttrNames) :
    (∀ (w : World) (sn ol : String) (ep : Option String),
      setup_logging_checked w sn lvl ol ep = .ok (setup_logging w sn lvl ol ep)) ∧
    getattrLevel lvl = 10 ∧ logLevelsGet lvl = 0 ∧
    (∀ (sn ep : String) (w : World), w.otelAvailable = true →
      alistGet w.otlpHandlers sn = Option.none →
      ∃ ch oh, ((setup_logging w sn lvl lvl (some ep)).1).handlers = [ch, oh] ∧
        isConsoleHandler ch = true ∧ ch.level = 10 ∧
        isOtlpHandler oh = true ∧ oh.level = 0 ∧
        (∀ levelno : Nat, oh.level ≤ levelno)) := by
  simp only [loggingUpperAttrNames, List.mem_append, not_or] at h
  obtain ⟨hsev, hnonlvl⟩ := h
  have hck : consoleSetLevel lvl = .ok (getattrLevel lvl) :=
    consoleSetLevel_eq_getattrLevel lvl hnonlvl
  simp only [severityLevelNames, List.mem_cons, List.not_mem_nil, or_false,
    not_or] at hsev
  obtain ⟨hn1, hn2, hn3, hn4, hn5, hn6, hn7, hn8⟩ := hsev
  have hb1 : (pyUpper lvl == "CRITICAL") = false := by simpa using hn1
  have hb2 : (pyUpper lvl == "FATAL") = false := by simpa using hn2
  have hb3 : (pyUpper lvl == "ERROR") = false := by simpa using hn3
  have hb4 : (pyUpper lvl == "WARNING") = false := by simpa using hn4
  have hb5 : (pyUpper lvl == "WARN") = false := by simpa using hn5
  have hb6 : (pyUpper lvl == "INFO") = false := by simpa using hn6
  have hb7 : (pyUpper lvl == "DEBUG") = false := by simpa using hn7
  have hb8 : (pyUpper lvl == "NOTSET") = false := by simpa using hn8
  have hga : getattrLevel lvl = 10 := by
    unfold getattrLevel
    simp only [hb1, hb2, hb3, hb4, hb5, hb6, hb7, hb8, Bool.false_eq_true,
      if_false]
  have hlg : logLevelsGet lvl = 0 := by
    unfold logLevelsGet
    simp only [hb1, hb3, hb4, hb6, hb7, Bool.false_eq_true, if_false]
  refine ⟨?_, hga, hlg, ?_⟩
  · intro w sn ol ep
    unfold setup_logging_checked
    rw [hck]
  intro sn ep w hok hno
  unfold setup_logging
  have h2 : getOtlpLoggingHandler { w with nextUid := w.nextUid + 1 } sn lvl ep =
      (some { kind := .otlp (rstripSlash ep ++ "/v1/logs"),
              level := logLevelsGet lvl, uid := w.nextUid + 1 },
       { w with otlpHandlers := w.otlpHandlers ++
                  [(sn, { kind := .otlp (rstripSlash ep ++ "/v1/logs"),
                          level := logLevelsGet lvl, uid := w.nextUid + 1 })],
                nextUid := w.nextUid + 2 }) := by
    unfold getOtlpLoggingHandler
    simp only [show ({ w with nextUid := w.nextUid + 1 } : World).otlpHandlers =
      w.otlpHandlers from rfl, hno]
    rw [if_pos hok]
  simp only [h2]
  refine ⟨{ kind := .console, level := getattrLevel lvl, uid := w.nextUid },
          { kind := .otlp (rstripSlash ep ++ "/v1/logs"),
            level := logLevelsGet lvl, uid := w.nextUid + 1 },
          rfl, rfl, hga, rfl, hlg, ?_⟩
  intro levelno
  rw [hlg]
  exact Nat.zero_le levelno

/-- Witness for `unrecognized_level_defaults` at the unrecognized level
string `"TRACE"`, whose uppercase form names no `logging` attribute. -/
theorem unrecognized_level_defaults_witness :
    (∀ (w : World) (sn ol : String) (ep : Option String),
      setup_logging_checked w sn "TRACE" ol ep =
        .ok (setup_logging w sn "TRACE" ol ep)) ∧
    getattrLevel "TRACE" = 10 ∧ logLevelsGet "TRACE" = 0 ∧
    (∀ (sn ep : String) (w : World), w.otelAvailable = true →
      alistGet w.otlpHandlers sn = Option.none →
      ∃ ch oh, ((setup_logging w sn "TRACE" "TRACE" (some ep)).1).handlers = [ch, oh] ∧
        isConsoleHandler ch = true ∧ ch.level = 10 ∧
        isOtlpHandler oh = true ∧ oh.level = 0 ∧
        (∀ levelno : Nat, oh.level ≤ levelno)) :=
  unrecognized_level_defaults "TRACE" (by decide)

/-- Python `str.strip()` whitespace test (the ASCII whitespace characters;
the service's inputs are ASCII). -/
def isPyWhitespace (c : Char) : Bool :=
  c == ' ' || c == Char.ofNat 9 || c == Char.ofNat 10 || c == Char.ofNat 13 ||
    c == Char.ofNat 11 || c == Char.ofNat 12

/-- `str.strip()`: drop leading and trailing whitespace. -/
def pyStrip (s : String) : String :=
  String.mk (((s.data.dropWhile isPyWhitespace).reverse.dropWhile
    isPyWhitespace).reverse)

/-- `str.lower()` (ASCII; the comparison target is the ASCII string
`"ping"`). -/
def pyLower (s : String) : String := String.mk (s.data.map Char.toLower)

/-- The `PongResponse` model: `{"message": ...}`. -/
structure PongResponse : Type where
  message : String
deriving Repr, DecidableEq

/-- The `pong` route handler, paired with the HTTP status the framework
sends: the function returns normally on every input (no `HTTPException` is
ever raised, despite the docstring's mention of a 400), so the status is
always the route's default 200.  The reply is `"Pong"` exactly when
`request.message.strip().lower() == "ping"`, else the error-message body. -/
def pong (message : String) : Nat × PongResponse :=
  if pyLower (pyStrip message) != "ping" then
    (200, { message := "Message must be \"Ping\" to receive \"Pong\" response" })
  else
    (200, { message := "Pong" })

/-- C6: for every inbound message, `POST /pong` returns HTTP 200, and replies
`"Pong"` exactly when the message, after stripping surrounding whitespace,
equals `"ping"` case-insensitively; any other message gets the body saying
the message must be `"Ping"`.  The two spec scenarios (`" PING \t"` and
`"hello"`) are instances. -/
theorem pong_behavior :
    (∀ m : String, (pong m).1 = 200 ∧
      ((pong m).2.message = "Pong" ↔ pyLower (pyStrip m) = "ping") ∧
      (pyLower (pyStrip m) ≠ "ping" →
        (pong m).2.message = "Message must be \"Ping\" to receive \"Pong\" response")) ∧
    pong " PING \t" = (200, { message := "Pong" }) ∧
    pong "hello" =
      (200, { message := "Message must be \"Ping\" to receive \"Pong\" response" }) := by
  refine ⟨?_, by decide, by decide⟩
  intro m
  unfold pong
  by_cases h : pyLower (pyStrip m) = "ping"
  · rw [if_neg (by simp [h])]
    exact ⟨rfl, by simp [h], fun hc => absurd h hc⟩
  · rw [if_pos (by simpa using h)]
    refine ⟨rfl, ?_, fun _ => rfl⟩
    constructor
    · intro hc
      exact absurd hc (by decide)
    · intro hc
      exact absurd hc h

/-- The `SendPingResponse` model: success flag and optional response
message. -/
structure SendPingResponse : Type where
  success : Bool
  response_message : Option String
deriving Repr, DecidableEq

/-- What the upstream `POST {url}/api/v1/pong` call can produce, seen from
the `ping` handler: an `httpx.RequestError` (connection refused, timeout,
...), or an HTTP response with a status code and a body whose JSON parse
may itself fail. -/
inductive UpstreamOutcome : Type where
  | requestError
  | response (status : Nat) (body : Except PyExn PyVal)

/-- The `ping` route handler's result as a function of the upstream
outcome, with the route's HTTP status.  The `try` body performs
`raise_for_status()` (httpx: raises `HTTPStatusError` for any non-2xx
status), parses the JSON body (`response.json()` may raise), reads
`response_data.get("message")` (raises `AttributeError` when the body is
not an object), and compares with `"Pong"`; the three `except` arms catch
`HTTPStatusError`, `RequestError` and `Exception` and return the
structured `{"success": false, "response_message": null}` instead of
re-raising, so the route itself always answers 200. -/
def ping : UpstreamOutcome → Nat × SendPingResponse
  | .requestError => (200, { success := false, response_message := Option.none })
  | .response status body =>
      if status < 200 || 300 ≤ status then
        (200, { success := false, response_message := Option.none })
      else
        match body with
        | .error _ => (200, { success := false, response_message := Option.none })
        | .ok v =>
            match v with
            | .dict fields =>
                match (match lookupKey fields "message" with
                       | some x => x
                       | Option.none => PyVal.none) with
                | .str s =>
                    if s = "Pong" then (200, { success := true, response_message := some s })
                    else (200, { success := false, response_message := some s })
                | .none => (200, { success := false, response_message := Option.none })
                | _ => (200, { success := false, response_message := Option.none })
            | _ => (200, { success := false, response_message := Option.none })

/-- C7: whenever the upstream `/pong` call fails — request error (connection
refused, timeout) or HTTP status error (any non-2xx response, whatever its
body) — `POST /ping` answers HTTP 200 with the structured
`{"success": false, "response_message": null}`; the failure is never
surfaced as an HTTP error and never raised to the caller. -/
theorem ping_upstream_failures :
    ping .requestError =
      (200, { success := false, response_message := Option.none }) ∧
    (∀ (status : Nat) (body : Except PyExn PyVal),
      status < 200 ∨ 300 ≤ status →
      ping (.response status body) =
        (200, { success := false, response_message := Option.none })) := by
  constructor
  · rfl
  · intro status body h
    simp only [ping]
    rw [if_pos (by simpa using h)]

/-- Witness for `ping_upstream_failures`: a refused connection and a 503
from the upstream service. -/
theorem ping_upstream_failures_witness :
    ping .requestError =
      (200, { success := false, response_message := Option.none }) ∧
    ping (.response 503 (.ok (.str "Service Unavailable"))) =
      (200, { success := false, response_message := Option.none }) :=
  ⟨ping_upstream_failures.1,
   ping_upstream_failures.2 503 (.ok (.str "Service Unavailable"))
     (Or.inr (by decide))⟩

/-- Witness for `pong_behavior` at the spec's padded mixed-case scenario. -/
theorem pong_behavior_witness :
    (pong " PING \t").1 = 200 ∧
    ((pong " PING \t").2.message = "Pong" ↔
      pyLower (pyStrip " PING \t") = "ping") ∧
    (pyLower (pyStrip " PING \t") ≠ "ping" →
      (pong " PING \t").2.message =
        "Message must be \"Ping\" to receive \"Pong\" response") :=
  pong_behavior.1 " PING \t"
